import Mathlib

/-!
Verification of the LoRaWAN log replay/decode application core
(`app.py`, `make_test_log.py`).

The Python source is shallowly embedded: bytes become `List Nat` (each entry
a byte value `< 256`), fallible code returns `Except`, and the AES-128-ECB
single-block primitive from the external PyCryptodome library is an abstract
parameter `aes : List Nat → List Nat → List Nat` (key, 16-byte block →
16-byte block); every property proved here holds for an arbitrary such
block function, in particular for real AES.  Bit operations on machine
integers are rendered arithmetically: `x >> k` as `x / 2^k`, `x << k` as
`x * 2^k` (or kept as `<<<`), and power-of-two masks `x & (2^k - 1)` as
`x % 2^k`.
-/

/-- Byte-wise XOR of two byte strings, truncating to the shorter one
(`enc[i] = payload[i] ^ s[i - start]` over the available bytes). -/
def xorBytes (xs s : List Nat) : List Nat :=
  List.zipWith (fun a b => a ^^^ b) xs s

/-- The LoRaWAN `A_i` counter block shared by `encrypt_frm_payload`
(make_test_log.py) and `lorawan_decrypt_payload` (app.py):
`0x01 ‖ 0x00000000 ‖ dir ‖ devaddr_le ‖ fcnt(LE,4) ‖ 0x00 ‖ blockByte`.
The direction byte and block-index byte are passed already masked, since the
two Python functions mask them differently. -/
def aBlock (devaddr_le : List Nat) (fcnt dirByte blockByte : Nat) : List Nat :=
  [0x01, 0x00, 0x00, 0x00, 0x00, dirByte] ++ devaddr_le ++
    [fcnt % 256, fcnt / 256 % 256, fcnt / 65536 % 256, fcnt / 16777216 % 256,
     0x00, blockByte]

/-- Block loop of `encrypt_frm_payload` (make_test_log.py lines 90-119):
processes the payload 16 bytes at a time; `blockIndex` is the 1-based Python
loop counter, written into the counter block as `block_index & 0xFF`. -/
def encryptBlocks (aes : List Nat → List Nat → List Nat)
    (skey devaddr_le : List Nat) (fcnt direction : Nat) :
    Nat → List Nat → List Nat
  | _, [] => []
  | blockIndex, b :: bs =>
    let s := aes skey (aBlock devaddr_le fcnt (direction % 256) (blockIndex % 256))
    xorBytes ((b :: bs).take 16) s ++
      encryptBlocks aes skey devaddr_le fcnt direction (blockIndex + 1) ((b :: bs).drop 16)
  termination_by _ rest => rest.length
  decreasing_by simp [List.length_drop]; omega

/-- `encrypt_frm_payload(skey, devaddr_le, fcnt, direction, payload)` from
make_test_log.py: LoRaWAN FRMPayload encryption (AES-CTR with the LoRaWAN
counter-block layout).  The empty payload encrypts to the empty string. -/
def encrypt_frm_payload (aes : List Nat → List Nat → List Nat)
    (skey devaddr_le : List Nat) (fcnt direction : Nat) (payload : List Nat) :
    List Nat :=
  if payload = [] then []
  else encryptBlocks aes skey devaddr_le fcnt direction 1 payload

/-- Block loop of `lorawan_decrypt_payload` (app.py lines 4926-4938);
`i` is the 0-based Python loop counter.  The Python code assigns the raw
value `i + 1` into a single bytearray cell (`a_block[15] = i + 1`), which
raises `ValueError` as soon as `i + 1 > 255`; this is modelled by the
explicit error branch. -/
def decryptBlocks (aes : List Nat → List Nat → List Nat)
    (key devaddr_le : List Nat) (fcnt direction : Nat) :
    Nat → List Nat → Except String (List Nat)
  | _, [] => .ok []
  | i, b :: bs =>
    if 255 < i + 1 then .error "byte must be in range(0, 256)"
    else
      let s := aes key (aBlock devaddr_le fcnt (direction % 2) (i + 1))
      match decryptBlocks aes key devaddr_le fcnt direction (i + 1) ((b :: bs).drop 16) with
      | .ok out => .ok (xorBytes ((b :: bs).take 16) s ++ out)
      | .error e => .error e
  termination_by _ rest => rest.length
  decreasing_by simp [List.length_drop]; omega

/-- `lorawan_decrypt_payload(key, devaddr_le, fcnt, payload, direction)` from
app.py lines 4920-4939.  `fcnt.to_bytes(4, "little")` raises `OverflowError`
for `fcnt ≥ 2^32` (on the first loop iteration, hence only when the payload
is nonempty); this is the second error branch. -/
def lorawan_decrypt_payload (aes : List Nat → List Nat → List Nat)
    (key devaddr_le : List Nat) (fcnt : Nat) (payload : List Nat)
    (direction : Nat) : Except String (List Nat) :=
  if payload = [] then .ok []
  else if 4294967296 ≤ fcnt then .error "int too big to convert"
  else decryptBlocks aes key devaddr_le fcnt direction 0 payload

deriving instance DecidableEq for Except

/-- One entry of the FPort-29 container: `{"port": .., "payload": .., "timestamp": ..}`. -/
structure Port29Msg where
  port : Nat
  payload : List Nat
  timestamp : Nat
deriving DecidableEq, Repr

/-- Loop body of `unpack_port29_messages` (app.py lines 4823-4842), with the
read position `i` replaced by the suffix `payload[i:]`.  The loop condition
`i < msg_len - 7` becomes `7 < rest.length`; `port = payload[i]`,
`length = payload[i+2]`, `msg = payload[i+1 : i+length+3]`, then a 4-byte
little-endian timestamp, and the position advances past it. -/
def unpackGo (rest : List Nat) : Except String (List Port29Msg) :=
    if _h7 : rest.length ≤ 7 then .ok []
    else if rest.length < 3 then .error "Port 29 message header incomplete."
    else
      let port := rest.getD 0 0
      let length := rest.getD 2 0
      if rest.length < length + 3 then .error "Port 29 message length exceeds payload."
      else
        let msg := (rest.drop 1).take (length + 2)
        if rest.length < length + 3 + 4 then .error "Port 29 timestamp missing."
        else
          let t0 := rest.getD (length + 3) 0
          let t1 := rest.getD (length + 4) 0
          let t2 := rest.getD (length + 5) 0
          let t3 := rest.getD (length + 6) 0
          let timestamp := (t3 <<< 24 ||| t2 <<< 16 ||| t1 <<< 8 ||| t0) &&& 4294967295
          match unpackGo (rest.drop (length + 7)) with
          | .ok msgs => .ok (⟨port, msg, timestamp⟩ :: msgs)
          | .error e => .error e
  termination_by rest.length
  decreasing_by simp [List.length_drop]; omega

/-- `unpack_port29_messages(payload)` from app.py lines 4817-4843. -/
def unpack_port29_messages (payload : List Nat) : Except String (List Port29Msg) :=
  if payload = [] then .ok []
  else unpackGo payload

/-- JSON values as produced by `json.loads` / consumed by `json.dumps`.
Python floats are modelled as exact rationals (`Rat`); none of the verified
properties depend on floating-point rounding. -/
inductive Json where
  | null
  | bool (b : Bool)
  | num (q : Rat)
  | str (s : String)
  | arr (xs : List Json)
  | obj (fields : List (String × Json))

/-- Python truthiness (`bool(x)`) on JSON values: `None`, `False`, `0`, `""`,
`[]` and `{}` are falsy. -/
def jtruthy : Json → Bool
  | .null => false
  | .bool b => b
  | .num q => decide (q ≠ 0)
  | .str s => decide (s ≠ "")
  | .arr xs => !xs.isEmpty
  | .obj fs => !fs.isEmpty

/-- `dict.get(key)` on a JSON object: last binding wins, mirroring how
`json.loads` collapses duplicate keys (later entries overwrite earlier). -/
def jlookup (fields : List (String × Json)) (key : String) : Option Json :=
  fields.foldl (fun acc p => if p.1 = key then some p.2 else acc) none

/-- `rxpk.get(key)` on a JSON value known to be an object (returns `none`
both for a missing key and for a non-object). -/
def jget (v : Json) (key : String) : Option Json :=
  match v with
  | .obj fields => jlookup fields key
  | _ => none

/-- Python whitespace characters recognised by `str.strip()` (ASCII subset). -/
def isPySpace (c : Char) : Bool :=
  c = ' ' || c.toNat = 9 || c.toNat = 10 || c.toNat = 11 || c.toNat = 12 || c.toNat = 13

/-- `str.strip()`: remove leading and trailing whitespace. -/
def pyStrip (s : String) : String :=
  String.mk (((s.data.dropWhile isPySpace).reverse.dropWhile isPySpace).reverse)

/-- `str.replace(c, "")`: remove every occurrence of one character. -/
def removeChar (c : Char) (s : String) : String :=
  String.mk (s.data.filter (fun x => x ≠ c))

/-- `clean_hex` (app.py line 4427): strip spaces, colons and dashes, then
surrounding whitespace. -/
def clean_hex (value : String) : String :=
  pyStrip (removeChar '-' (removeChar ':' (removeChar ' ' value)))

/-- Value of one hexadecimal digit. -/
def hexVal (c : Char) : Option Nat :=
  if '0' ≤ c ∧ c ≤ '9' then some (c.toNat - 48)
  else if 'a' ≤ c ∧ c ≤ 'f' then some (c.toNat - 87)
  else if 'A' ≤ c ∧ c ≤ 'F' then some (c.toNat - 55)
  else none

/-- `bytes.fromhex` on a whitespace-free string: an even number of hex
digits, two per byte; `none` models the `ValueError` on odd length or on a
non-hex character. -/
def hexPairs : List Char → Option (List Nat)
  | [] => some []
  | [_] => none
  | c1 :: c2 :: rest =>
    match hexVal c1, hexVal c2, hexPairs rest with
    | some a, some b, some t => some ((a * 16 + b) :: t)
    | _, _, _ => none

/-- Uppercase hex digit for a value `< 16` (`bytes.hex().upper()`). -/
def hexDigitUpper (n : Nat) : Char :=
  if n < 10 then Char.ofNat (48 + n) else Char.ofNat (55 + n)

/-- One byte as two uppercase hex characters. -/
def byteToHexUpper (b : Nat) : String :=
  String.mk [hexDigitUpper (b / 16 % 16), hexDigitUpper (b % 16)]

/-- `bytes.hex().upper()`: a byte string as uppercase hex text. -/
def bytesToHexUpper (bs : List Nat) : String :=
  String.join (bs.map byteToHexUpper)

/-- Value of one base64 alphabet character. -/
def b64val (c : Char) : Option Nat :=
  if 'A' ≤ c ∧ c ≤ 'Z' then some (c.toNat - 65)
  else if 'a' ≤ c ∧ c ≤ 'z' then some (c.toNat - 71)
  else if '0' ≤ c ∧ c ≤ '9' then some (c.toNat + 4)
  else if c = '+' then some 62
  else if c = '/' then some 63
  else none

/-- Reassemble bytes from 6-bit base64 digits; a final group of 2 or 3
digits yields 1 or 2 bytes (a group of 1 digit is rejected upstream). -/
def b64bytes : List Nat → List Nat
  | d1 :: d2 :: d3 :: d4 :: rest =>
    (d1 * 4 + d2 / 16) :: (d2 % 16 * 16 + d3 / 4) :: (d3 % 4 * 64 + d4) ::
      b64bytes rest
  | [d1, d2] => [d1 * 4 + d2 / 16]
  | [d1, d2, d3] => [d1 * 4 + d2 / 16, d2 % 16 * 16 + d3 / 4]
  | _ => []

/-- `base64.b64decode(s, validate=True)`: every character must be in the
base64 alphabet or `'='`, the length must be a multiple of 4, and `'='` may
only appear as the final one or two characters; `none` models
`binascii.Error`/`ValueError`. -/
def b64decode (s : String) : Option (List Nat) :=
  let cs := s.data
  let padLen := (cs.reverse.takeWhile (fun c => c = '=')).length
  let body := cs.take (cs.length - padLen)
  if cs.any (fun c => (b64val c).isNone && c ≠ '=') then none
  else if cs.length % 4 ≠ 0 then none
  else if 2 < padLen then none
  else if body.any (fun c => c = '=') then none
  else if body.length % 4 = 1 then none
  else
    match (body.mapM b64val) with
    | none => none
    | some digits => some (b64bytes digits)

/-- ASCII text as bytes.  Used for the JSON bodies built with
`json.dumps(...).encode("utf-8")` with the default `ensure_ascii`, whose output is pure
ASCII, so code points and UTF-8 bytes coincide. -/
def strBytes (s : String) : List Nat :=
  s.data.map Char.toNat

/-- Result of `parse_uplink` (app.py lines 4791-4801). -/
structure ParsedFrame where
  mhdr : Nat
  mtype : Nat
  devaddr : String
  devaddr_le : List Nat
  fctrl : Nat
  fcnt : Nat
  fopts : List Nat
  fport : Option Nat
  frm_payload : List Nat

/-- Byte-level part of `parse_uplink` (app.py lines 4761-4801), applied to
the base64-decoded PHYPayload: validates the length, the MHDR message type
(`(mhdr >> 5) & 0x07 ∈ {2, 4}`), the MACPayload (`phy[1:-4]`) and FHDR
lengths, and splits off DevAddr, FCtrl, FCnt, FOpts, FPort and FRMPayload. -/
def parse_phy (phy : List Nat) : Except String ParsedFrame :=
  if phy.length < 12 then .error "PHYPayload too short."
  else
    let mhdr := phy.getD 0 0
    let mtype := mhdr / 32 % 8
    if ¬ (mtype = 2 ∨ mtype = 4) then .error "PHYPayload is not an uplink data frame."
    else
      let mac_payload := (phy.drop 1).take (phy.length - 5)
      if mac_payload.length < 7 then .error "MACPayload too short."
      else
        let devaddr_le := mac_payload.take 4
        let devaddr := bytesToHexUpper devaddr_le.reverse
        let fctrl := mac_payload.getD 4 0
        let fcnt := mac_payload.getD 5 0 + 256 * mac_payload.getD 6 0
        let fopts_len := fctrl % 16
        if mac_payload.length < 7 + fopts_len then .error "FHDR length mismatch."
        else
          let fopts := (mac_payload.drop 7).take fopts_len
          let remaining := mac_payload.drop (7 + fopts_len)
          match remaining with
          | [] =>
            .ok ⟨mhdr, mtype, devaddr, devaddr_le, fctrl, fcnt, fopts, none, []⟩
          | fp :: rest =>
            .ok ⟨mhdr, mtype, devaddr, devaddr_le, fctrl, fcnt, fopts, some fp, rest⟩

/-- `parse_uplink(rxpk)` from app.py lines 4753-4801: extract `rxpk.data`,
base64-decode it, then parse the PHYPayload.  A truthy non-string `data`
raises `TypeError` inside `base64.b64decode`; all of this function's callers
catch arbitrary exceptions, so that case is folded into the error string. -/
def parse_uplink (rxpk : Json) : Except String ParsedFrame :=
  match (jget rxpk "data").getD Json.null with
  | v =>
    if ¬ jtruthy v then .error "Missing rxpk.data payload."
    else
      match v with
      | .str s =>
        match b64decode s with
        | none => .error "rxpk.data is not valid base64."
        | some phy => parse_phy phy
      | _ => .error "TypeError: argument should be a bytes-like object or ASCII string"

/-- Python exception classes distinguished by the scan pipeline:
`scan_logfile` catches `ValueError` per line but lets anything else
(`TypeError` from a non-string field) escape and abort the whole scan. -/
inductive PyErr where
  | valueError (msg : String)
  | typeError (msg : String)
deriving DecidableEq, Repr

/-- `extract_devaddr(rxpk)` from app.py lines 4950-4961: base64-decode
`rxpk.data`, require at least 5 bytes, and return `payload[1:5]` reversed as
uppercase hex. -/
def extract_devaddr (rxpk : Json) : Except PyErr String :=
  match (jget rxpk "data").getD Json.null with
  | v =>
    if ¬ jtruthy v then .error (.valueError "Missing rxpk.data payload.")
    else
      match v with
      | .str s =>
        match b64decode s with
        | none => .error (.valueError "rxpk.data is not valid base64.")
        | some payload =>
          if payload.length < 5 then
            .error (.valueError "PHYPayload too short to contain a DevAddr.")
          else .ok (bytesToHexUpper ((payload.drop 1).take 4).reverse)
      | _ => .error (.typeError "argument should be a bytes-like object or ASCII string")

/-- `hex_to_bytes(value, label)` from app.py lines 4742-4750: clean the hex
string, decode it, and require exactly 16 bytes. -/
def hex_to_bytes (value label : String) : Except String (List Nat) :=
  match hexPairs (clean_hex value).data with
  | none => .error (label ++ " must be valid hex.")
  | some raw =>
    if raw.length ≠ 16 then .error (label ++ " must be 16 bytes (32 hex chars).")
    else .ok raw

/-- `normalize_gateway_eui(gw_hex)` from app.py lines 9524-9534: drop `:`
and `-` separators (and, via `str.strip()`, surrounding whitespace), require
exactly 16 characters, then `bytes.fromhex`. -/
def normalize_gateway_eui (gw_hex : String) : Except String (List Nat) :=
  let cleaned := pyStrip (removeChar '-' (removeChar ':' gw_hex))
  if cleaned.length ≠ 16 then
    .error ("Gateway EUI must be 8 bytes (16 hex chars), got " ++ cleaned)
  else
    match hexPairs cleaned.data with
    | none => .error "non-hexadecimal number found in fromhex() arg"
    | some bs => .ok bs

/-- Lowercase hex digit for a value `< 16`. -/
def hexDigitLower (n : Nat) : Char :=
  if n < 10 then Char.ofNat (48 + n) else Char.ofNat (87 + n)

/-- Four lowercase hex digits, as in a JSON `\uXXXX` escape. -/
def hex4 (n : Nat) : String :=
  String.mk [hexDigitLower (n / 4096 % 16), hexDigitLower (n / 256 % 16),
             hexDigitLower (n / 16 % 16), hexDigitLower (n % 16)]

/-- Escape of one character inside a JSON string literal, following
`json.dumps` with `ensure_ascii=True`: short escapes for the usual control
characters, `\uXXXX` for other control and all non-ASCII characters
(surrogate pairs beyond the BMP). -/
def jstrEscape (c : Char) : String :=
  if c = '"' then "\\\""
  else if c = '\\' then "\\\\"
  else if c.toNat = 10 then "\\n"
  else if c.toNat = 9 then "\\t"
  else if c.toNat = 13 then "\\r"
  else if c.toNat = 8 then "\\b"
  else if c.toNat = 12 then "\\f"
  else if c.toNat < 32 then "\\u" ++ hex4 c.toNat
  else if c.toNat < 128 then String.mk [c]
  else if c.toNat < 65536 then "\\u" ++ hex4 c.toNat
  else
    "\\u" ++ hex4 (55296 + (c.toNat - 65536) / 1024) ++
      "\\u" ++ hex4 (56320 + (c.toNat - 65536) % 1024)

/-- A JSON string literal with quotes, as emitted by `json.dumps`. -/
def jstring (s : String) : String :=
  "\"" ++ String.join (s.data.map jstrEscape) ++ "\""

mutual

/-- `json.dumps(value, separators=(",", ":"))`: compact JSON serialization.
Integral numbers print exactly as in Python; non-integral rationals fall
back to Lean rational notation (Python float `repr` is outside the scope of
this embedding and never reached by the proved properties). -/
def jdump : Json → String
  | .null => "null"
  | .bool true => "true"
  | .bool false => "false"
  | .num q => if q.den = 1 then toString q.num else toString q
  | .str s => jstring s
  | .arr xs => "[" ++ jdumpList xs ++ "]"
  | .obj fs => "\x7b" ++ jdumpFields fs ++ "\x7d"

/-- Comma-separated serialization of a JSON array body. -/
def jdumpList : List Json → String
  | [] => ""
  | [x] => jdump x
  | x :: y :: rest => jdump x ++ "," ++ jdumpList (y :: rest)

/-- Comma-separated serialization of a JSON object body. -/
def jdumpFields : List (String × Json) → String
  | [] => ""
  | [(k, v)] => jstring k ++ ":" ++ jdump v
  | (k, v) :: p :: rest => jstring k ++ ":" ++ jdump v ++ "," ++ jdumpFields (p :: rest)

end

/-- `build_push_data(gateway_eui_hex, rxpk)` from app.py lines 9537-9563:
a 12-byte Semtech PUSH_DATA header (`0x02`, two random token bytes from
`os.urandom(2)` passed here as parameters, `0x00`, the 8 gateway EUI bytes)
followed by the UTF-8 JSON body `{"rxpk":[rxpk]}` (with braces as written
by `json.dumps`). -/
def build_push_data (tok1 tok2 : Nat) (gateway_eui_hex : String) (rxpk : Json) :
    Except String (List Nat) :=
  match normalize_gateway_eui gateway_eui_hex with
  | .error e => .error e
  | .ok gw_bytes =>
    let body := strBytes (jdump (Json.obj [("rxpk", Json.arr [rxpk])]))
    .ok ([0x02, tok1, tok2, 0x00] ++ gw_bytes ++ body)

/-- One validated record of a scanned logfile
(`{"gateway_eui": .., "rxpk": ..}`). -/
structure UplinkRecord where
  gateway_eui : String
  rxpk : Json

/-- Whether a JSON value is an object (`isinstance(x, dict)`). -/
def Json.isObj : Json → Bool
  | .obj _ => true
  | _ => false

/-- One input line of `scan_logfile`, abstracted at the library boundary:
the UTF-8 decode and `json.loads` stages classify every physical line as
undecodable, blank after stripping, unparseable JSON, or a parsed JSON
value. -/
inductive ScanLine where
  | invalidUtf8
  | blank
  | badJson
  | value (v : Json)

/-- Per-line outcome inside `scan_logfile`: skipped, reported as one
validation error, accepted as a record (with its gateway EUI and DevAddr
strings), or an uncaught exception aborting the whole scan. -/
inductive LineOutcome where
  | skip
  | err (msg : String)
  | record (r : UplinkRecord) (gw : String) (devaddr : String)
  | crash (msg : String)

/-- Validation of one line (`scan_logfile` loop body, app.py lines
4970-5012).  Only `ValueError` is caught per line; a truthy non-string
`gatewayEui` or `rxpk.data` raises `AttributeError`/`TypeError`, which
escapes `scan_logfile` and aborts the entire request (the `crash` case). -/
def scanLine (n : Nat) : ScanLine → LineOutcome
  | .invalidUtf8 => .err ("Line " ++ toString n ++ ": invalid UTF-8 encoding.")
  | .blank => .skip
  | .badJson => .err ("Line " ++ toString n ++ ": JSON decode error.")
  | .value v =>
    match v with
    | .obj fields =>
      let gw :=
        match jlookup fields "gatewayEui" with
        | some g => if jtruthy g then g else (jlookup fields "gateway_eui").getD .null
        | none => (jlookup fields "gateway_eui").getD .null
      let rxpk := (jlookup fields "rxpk").getD .null
      if ¬ jtruthy gw ∨ ¬ rxpk.isObj then
        .err ("Line " ++ toString n ++ ": missing gatewayEui or rxpk.")
      else
        match gw with
        | .str gs =>
          match normalize_gateway_eui gs with
          | .error m => .err ("Line " ++ toString n ++ ": " ++ m)
          | .ok _ =>
            match extract_devaddr rxpk with
            | .error (.valueError m) => .err ("Line " ++ toString n ++ ": " ++ m)
            | .error (.typeError m) => .crash m
            | .ok devaddr => .record ⟨gs, rxpk⟩ gs devaddr
        | _ => .crash "AttributeError: object has no attribute replace"
    | _ => .err ("Line " ++ toString n ++ ": expected an object.")

/-- The `scan_logfile` loop over the numbered lines, accumulating parsed
records, gateway EUIs, DevAddrs and per-line error messages in input
order. -/
def scanLines (n : Nat) :
    List ScanLine →
      Except String (List UplinkRecord × List String × List String × List String)
  | [] => .ok ([], [], [], [])
  | l :: rest =>
    match scanLine n l with
    | .crash m => .error m
    | outcome =>
      match scanLines (n + 1) rest with
      | .error m => .error m
      | .ok (p, g, d, e) =>
        match outcome with
        | .skip => .ok (p, g, d, e)
        | .err m => .ok (p, g, d, m :: e)
        | .record r gw da => .ok (r :: p, gw :: g, da :: d, e)
        | .crash m => .error m

/-- Insertion into a `≤`-sorted list of strings. -/
def insertSorted (x : String) : List String → List String
  | [] => [x]
  | y :: ys => if x ≤ y then x :: y :: ys else y :: insertSorted x ys

/-- `sorted(...)` on a list of strings (Python sorts by code point, as does
`String` order in Lean). -/
def sortStrings (l : List String) : List String :=
  l.foldr insertSorted []

/-- `scan_logfile(stream)` from app.py lines 4964-5014: per-line validation,
then the gateway and DevAddr sets are returned sorted. -/
def scan_logfile (lines : List ScanLine) :
    Except String (List UplinkRecord × List String × List String × List String) :=
  match scanLines 1 lines with
  | .error m => .error m
  | .ok (p, g, d, e) => .ok (p, sortStrings g.dedup, sortStrings d.dedup, e)

/-- Outcome of the `/scan` request (app.py lines 6607-6656, identical logic
in `scan_stored_log`, lines 4597-4620): any validation error refuses the
scan and reports the per-line errors; otherwise an empty record set is
refused; otherwise the scan result is stored.  An uncaught exception from
`scan_logfile` aborts the request with no result. -/
def scan_outcome (lines : List ScanLine) :
    Except (List String) (List UplinkRecord × List String × List String) :=
  match scan_logfile lines with
  | .error m => .error [m]
  | .ok (parsed, gateways, devaddrs, scan_errors) =>
    if ¬ scan_errors.isEmpty then .error scan_errors
    else if parsed.isEmpty then .error ["No valid uplinks found."]
    else .ok (parsed, gateways, devaddrs)

/-- One session-key store entry (`credentials[devaddr]`), with `none`
modelling an absent dictionary key. -/
structure CredEntry where
  nwk_skey : Option String
  app_skey : Option String

/-- `get_missing_keys(devaddrs, credentials)` from app.py lines 6906-6914:
a DevAddr is missing when it has no entry, or either key is absent, empty,
or not exactly 32 characters long (`entry.get(.., "")` supplies `""` for an
absent key; only the length is checked, not hex validity). -/
def get_missing_keys (devaddrs : List String)
    (credentials : String → Option CredEntry) : List String :=
  devaddrs.filter (fun devaddr =>
    let entry := (credentials devaddr).getD ⟨none, none⟩
    let nwk := entry.nwk_skey.getD ""
    let app := entry.app_skey.getD ""
    nwk = "" || app = "" || nwk.length ≠ 32 || app.length ≠ 32)

mutual

/-- `flatten_decoded(value, prefix)` from app.py lines 4846-4863: flatten a
decoded JSON value to dotted-key scalars; `None` contributes nothing,
objects recurse with `.key` suffixes, arrays with `.index` suffixes. -/
def flatten_decoded : Json → String → List (String × Json)
  | .null, _ => []
  | .obj fields, pfx => flattenFields fields pfx
  | .arr xs, pfx => flattenArr xs 0 pfx
  | v, pfx => [(pfx, v)]

/-- Object branch of `flatten_decoded`. -/
def flattenFields : List (String × Json) → String → List (String × Json)
  | [], _ => []
  | (k, v) :: rest, pfx =>
    flatten_decoded v (if pfx = "" then k else pfx ++ "." ++ k) ++
      flattenFields rest pfx

/-- Array branch of `flatten_decoded`. -/
def flattenArr : List Json → Nat → String → List (String × Json)
  | [], _, _ => []
  | v :: rest, idx, pfx =>
    flatten_decoded v (if pfx = "" then toString idx else pfx ++ "." ++ toString idx) ++
      flattenArr rest (idx + 1) pfx

end

/-- `decoded_raw.get("data")` unwrapping (app.py lines 7154-7157 and
7203-7206): a dict with a `"data"` key and at most 3 entries is replaced by
its `"data"` value. -/
def unwrapData (raw : Json) : Json :=
  match raw with
  | .obj fs =>
    if (jlookup fs "data").isSome ∧ fs.length ≤ 3 then (jlookup fs "data").getD .null
    else raw
  | _ => raw

/-- One output row of the decode pass (the fields of the row dictionaries
built in app.py lines 7173-7263 that carry decode state; presentation-only
text fields such as `time`, `time_utc`, `decoded_preview` and `css` are
omitted, and `""` placeholders for numeric fields appear as `none`). -/
structure DecodeRow where
  index : Nat
  status : String
  devaddr : String
  fcnt : Option Nat
  fport : Option Nat
  time_unix : Option Nat
  payload_hex : String
  decoded : Json
  decoded_flat : List (String × Json)
  error : String

/-- Decode output for one record before row numbering: status, row FPort,
`time_unix`, `payload_hex`, decoded value and error message. -/
structure RowCore where
  status : String
  fport : Option Nat
  time_unix : Option Nat
  payload_hex : String
  decoded : Json
  error : String

/-- `keys["nwk_skey"]`-style dictionary access: raises `KeyError` (whose
`str()` is the quoted key) when the key is absent. -/
def keyField (o : Option String) (name : String) : Except String String :=
  match o with
  | some s => .ok s
  | none => .error ("'" ++ name ++ "'")

/-- One FPort-29 sub-message row (app.py lines 7135-7165): the decoder runs
under its own try/except, is skipped (empty object) when the sub-message
port is itself 29, and a decoder failure yields an `Error` row for that
sub-message only. -/
def port29Row (decoder : List Nat → Option Nat → String → Json → Except String Json)
    (devaddr : String) (rxpk : Json) (m : Port29Msg) : RowCore :=
  let mhex := bytesToHexUpper m.payload
  if m.port = 29 then ⟨"Decoded", some 29, some m.timestamp, mhex, Json.obj [], ""⟩
  else
    match decoder m.payload (some m.port) devaddr rxpk with
    | .ok raw => ⟨"Decoded", some m.port, some m.timestamp, mhex, unwrapData raw, ""⟩
    | .error e => ⟨"Error", some m.port, some m.timestamp, mhex, Json.null, e⟩

/-- Body of the per-record try block of the decode loop (app.py lines
7118-7235), after `parse_uplink` has succeeded: look up and decode the
session keys, decrypt, then either unpack an FPort-29 container into one
row per sub-message or run the decoder once. -/
def decodeTry (aes : List Nat → List Nat → List Nat)
    (decoder : List Nat → Option Nat → String → Json → Except String Json)
    (credentials : String → Option CredEntry) (rxpk : Json)
    (uplink : ParsedFrame) : Except String (List RowCore) := do
  let entry := (credentials uplink.devaddr).getD ⟨none, none⟩
  let nwkhex ← keyField entry.nwk_skey "nwk_skey"
  let nwk_skey ← hex_to_bytes nwkhex "NwkSKey"
  let apphex ← keyField entry.app_skey "app_skey"
  let app_skey ← hex_to_bytes apphex "AppSKey"
  let key := if uplink.fport ≠ some 0 ∧ uplink.fport ≠ none then app_skey else nwk_skey
  let decrypted ←
    lorawan_decrypt_payload aes key uplink.devaddr_le uplink.fcnt uplink.frm_payload 0
  let payload_hex := bytesToHexUpper decrypted
  if uplink.fport = some 29 then do
    let messages ← unpack_port29_messages decrypted
    if messages.isEmpty then .error "Port 29 payload contained no messages."
    else .ok (messages.map (port29Row decoder uplink.devaddr rxpk))
  else do
    let raw ← decoder decrypted uplink.fport uplink.devaddr rxpk
    .ok [⟨"Decoded", uplink.fport, none, payload_hex, unwrapData raw, ""⟩]

/-- Rows emitted for one scanned record (decode loop body, app.py lines
7109-7263): a `parse_uplink` failure or any other caught exception yields a
single `Error` row; otherwise one row per decode result, numbered
consecutively from `rowIndex + 1`. -/
def decodeRecord (aes : List Nat → List Nat → List Nat)
    (decoder : List Nat → Option Nat → String → Json → Except String Json)
    (credentials : String → Option CredEntry) (rowIndex : Nat)
    (rec : UplinkRecord) : List DecodeRow :=
  match parse_uplink rec.rxpk with
  | .error e =>
    [⟨rowIndex + 1, "Error", "", none, none, none, "", Json.null, [], e⟩]
  | .ok uplink =>
    match decodeTry aes decoder credentials rec.rxpk uplink with
    | .error e =>
      [⟨rowIndex + 1, "Error", uplink.devaddr, some uplink.fcnt, uplink.fport,
        none, "", Json.null, [], e⟩]
    | .ok cores =>
      cores.enum.map (fun p =>
        ⟨rowIndex + p.1 + 1, p.2.status, uplink.devaddr, some uplink.fcnt,
         p.2.fport, p.2.time_unix, p.2.payload_hex, p.2.decoded,
         flatten_decoded p.2.decoded "data", p.2.error⟩)

/-- The decode loop over all scanned records, threading the emitted-row
counter (`row_index` in app.py). -/
def decodeRows (aes : List Nat → List Nat → List Nat)
    (decoder : List Nat → Option Nat → String → Json → Except String Json)
    (credentials : String → Option CredEntry) (rowIndex : Nat) :
    List UplinkRecord → List DecodeRow
  | [] => []
  | r :: rest =>
    let rows := decodeRecord aes decoder credentials rowIndex r
    rows ++ decodeRows aes decoder credentials (rowIndex + rows.length) rest

/-- Result of the `action == "decode"` branch of the `/decode` endpoint. -/
inductive DecodeOutcome where
  | missingKeys (missing : List String)
  | decoded (rows : List DecodeRow)

/-- The `action == "decode"` branch of the `/decode` endpoint (app.py lines
7089-7269): if `get_missing_keys` reports any DevAddr, the whole batch is
refused before the record loop starts and no row is produced; otherwise the
loop emits the rows. -/
def decode_action (aes : List Nat → List Nat → List Nat)
    (decoder : List Nat → Option Nat → String → Json → Except String Json)
    (parsed : List UplinkRecord) (devaddrs : List String)
    (credentials : String → Option CredEntry) : DecodeOutcome :=
  let missing := get_missing_keys devaddrs credentials
  if ¬ missing.isEmpty then .missingKeys missing
  else .decoded (decodeRows aes decoder credentials 0 parsed)

/-- `REPLAY_RXPK_OVERRIDES` from app.py lines 73-81 (floats as exact
rationals). -/
def REPLAY_RXPK_OVERRIDES : List (String × Json) :=
  [("freq", Json.num (8681 / 10)), ("chan", Json.num 0), ("rfch", Json.num 0),
   ("stat", Json.num 1), ("modu", Json.str "LORA"), ("datr", Json.str "SF9BW125"),
   ("codr", Json.str "4/5")]

/-- Python `{**a, **b}` on JSON objects: keys of `a` keep their position but
take the value from `b` when overridden; keys only in `b` are appended in
`b`'s order. -/
def mergeFields (a b : List (String × Json)) : List (String × Json) :=
  (a.map (fun p => (p.1, (jlookup b p.1).getD p.2))) ++
    b.filter (fun p => ¬ (a.map Prod.fst).contains p.1)

/-- `{**rxpk, **REPLAY_RXPK_OVERRIDES}` applied to a scanned record's rxpk
(always a JSON object by scan validation). -/
def overrideRxpk (rxpk : Json) : Json :=
  match rxpk with
  | .obj fields => .obj (mergeFields fields REPLAY_RXPK_OVERRIDES)
  | v => v

/-- One replay log line (app.py lines 6391-6474 and 6699-6712).  The
presentation-only text fields (`send_time_ms`, `freq`, `size`, `message`,
`css`) are omitted; `index` is `none` for the synthetic `Stopped` line,
whose Python `index` is `""`. -/
structure ReplayLogLine where
  index : Option Nat
  status : String
  gateway : String
  fcnt : Option Nat

/-- Replay job state, mirroring a `REPLAY_CACHE` entry (app.py lines
5097-5113; the TTL timestamp is not modelled). -/
structure ReplayJob where
  status : String
  total : Nat
  sent : Nat
  errors : Nat
  host : String
  port : Nat
  delay_ms : Nat
  start_index : Nat
  current_index : Nat
  log_lines : List ReplayLogLine
  override_rxpk : Bool

/-- `store_replay_job(total, host, port, delay_ms, start_index, sent,
errors, log_lines, override_rxpk)` from app.py lines 5087-5114: a fresh
`running` job with `current_index = start_index`. -/
def store_replay_job (total : Nat) (host : String) (port delay_ms : Nat)
    (start_index sent errors : Nat) (log_lines : List ReplayLogLine)
    (override_rxpk : Bool) : ReplayJob :=
  ⟨"running", total, sent, errors, host, port, delay_ms, start_index,
   start_index, log_lines, override_rxpk⟩

/-- `fcnt` display value of a replay log line: `parse_uplink(rxpk)["fcnt"]`
with every exception mapped to `""` (app.py lines 6387-6390 etc.). -/
def logFcnt (rxpk : Json) : Option Nat :=
  match parse_uplink rxpk with
  | .ok uplink => some uplink.fcnt
  | .error _ => none

/-- Loop body of `run_replay_job` (app.py lines 6367-6478) for one record
at 1-based index `idx`: build the PUSH_DATA packet (with the rxpk overlay
when enabled) and append exactly one `Sent` or `Error` line; `sendOk`
abstracts the outcome of the UDP `sendto` syscall and `rand` the two
`os.urandom(2)` token bytes for this packet. -/
def replayStep (rand : Nat → Nat × Nat) (sendOk : Nat → Bool) (override : Bool)
    (idx : Nat) (rec : UplinkRecord) : ReplayLogLine × Bool :=
  let rxpk := if override then overrideRxpk rec.rxpk else rec.rxpk
  match build_push_data (rand idx).1 (rand idx).2 rec.gateway_eui rxpk with
  | .error _ => (⟨some idx, "Error", rec.gateway_eui, logFcnt rxpk⟩, false)
  | .ok _ =>
    if sendOk idx then (⟨some idx, "Sent", rec.gateway_eui, logFcnt rxpk⟩, true)
    else (⟨some idx, "Error", rec.gateway_eui, logFcnt rxpk⟩, false)

/-- The `run_replay_job` worker loop (app.py lines 6362-6485) run to
completion with no concurrent `stop`: starting from `start_index`, each
remaining record appends one log line, bumps `sent` or `errors`, and sets
`current_index` to its index; on exit a still-`running` job becomes
`done`.  (The cooperative status re-check before each send and the
`delay_ms` sleep have no observable effect in an uninterrupted run.) -/
def runReplayLoop (rand : Nat → Nat × Nat) (sendOk : Nat → Bool)
    (override : Bool) (idx : Nat) : List UplinkRecord → ReplayJob → ReplayJob
  | [], job => job
  | rec :: rest, job =>
    let (line, isSent) := replayStep rand sendOk override (idx + 1) rec
    let job' : ReplayJob :=
      { job with
        log_lines := job.log_lines ++ [line]
        sent := if isSent then job.sent + 1 else job.sent
        errors := if isSent then job.errors else job.errors + 1
        current_index := idx + 1 }
    runReplayLoop rand sendOk override (idx + 1) rest job'

/-- `run_replay_job(token, parsed, host, port, delay_ms, start_index, sent,
errors)` from app.py lines 6362-6485, as the final job state of an
uninterrupted run. -/
def run_replay_job (rand : Nat → Nat × Nat) (sendOk : Nat → Bool)
    (parsed : List UplinkRecord) (job : ReplayJob) : ReplayJob :=
  let final := runReplayLoop rand sendOk job.override_rxpk job.start_index
    (parsed.drop job.start_index) job
  if final.status = "running" then { final with status := "done" } else final

/-- `replay_resume` (app.py lines 6719-6757): a no-op (`none`) unless the
job exists with status `stopped` and the scan result is still cached; when
it proceeds, a fresh job is stored under a new token whose `start_index` is
the old job's `current_index` clamped to the record count, carrying forward
`sent`, `errors`, the log lines and the override flag. -/
def replay_resume (entry : Option ReplayJob)
    (cached : Option (List UplinkRecord)) : Option ReplayJob :=
  match entry with
  | none => none
  | some job =>
    if job.status ≠ "stopped" then none
    else
      match cached with
      | none => none
      | some parsed =>
        some (store_replay_job parsed.length job.host job.port job.delay_ms
          (min job.current_index parsed.length) job.sent job.errors
          job.log_lines job.override_rxpk)

/-- Four little-endian bytes of a 32-bit value, as written by the synthetic
sub-message builder of the C4/C9 scenarios. -/
def tsBytes (t : Nat) : List Nat :=
  [t % 256, t / 256 % 256, t / 65536 % 256, t / 16777216 % 256]

/-- One synthetic FPort-29 sub-message of the specification scenario:
`port(1) ‖ reserved(1) ‖ len(1) ‖ msg(len bytes)` followed by a 4-byte
little-endian timestamp. -/
structure Port29Input where
  port : Nat
  reserved : Nat
  msg : List Nat
  timestamp : Nat

/-- Wire bytes of one synthetic sub-message. -/
def mk29One (m : Port29Input) : List Nat :=
  m.port :: m.reserved :: m.msg.length :: (m.msg ++ tsBytes m.timestamp)

/-- Concatenation of synthetic sub-messages (the scenario's test payload). -/
def mk29 : List Port29Input → List Nat
  | [] => []
  | m :: rest => mk29One m ++ mk29 rest

/-- The message record `unpack_port29_messages` actually produces for a
synthetic sub-message: the `payload` field is `payload[i+1 : i+len+3]`,
i.e. the reserved byte, the length byte and then the `len` message bytes. -/
def toMsg (m : Port29Input) : Port29Msg :=
  ⟨m.port, m.reserved :: m.msg.length :: m.msg, m.timestamp⟩

/-- A degenerate constant block function standing in for AES in concrete
evaluations; any function of this type satisfies the 16-byte-block
assumption. -/
def constAes : List Nat → List Nat → List Nat :=
  fun _ _ => List.replicate 16 0

/-- Whether a scan input line is blank (skipped without error or record). -/
def ScanLine.isBlank : ScanLine → Bool
  | .blank => true
  | _ => false

/-- The log lines the worker appends for the records from 1-based index
`idx + 1` onward. -/
def replayLines (rand : Nat → Nat × Nat) (sendOk : Nat → Bool)
    (override : Bool) : Nat → List UplinkRecord → List ReplayLogLine
  | _, [] => []
  | idx, rec :: rest =>
    (replayStep rand sendOk override (idx + 1) rec).1 ::
      replayLines rand sendOk override (idx + 1) rest

/-- Whether a replay log line is a `Sent` or `Error` line (as opposed to
the synthetic `Stopped` marker). -/
def isSentOrError (l : ReplayLogLine) : Bool :=
  l.status = "Sent" || l.status = "Error"

lemma getD_append_left {l₁ l₂ : List Nat} {k d : Nat} (h : k < l₁.length) :
    (l₁ ++ l₂).getD k d = l₁.getD k d := by
  induction l₁ generalizing k with
  | nil => simp at h
  | cons x xs ih =>
    cases k with
    | zero => rfl
    | succ k => simpa using ih (by simpa using h)

lemma getD_append_length_add (l₁ l₂ : List Nat) (k d : Nat) :
    (l₁ ++ l₂).getD (l₁.length + k) d = l₂.getD k d := by
  induction l₁ with
  | nil => simp
  | cons x xs ih => simpa [Nat.succ_add] using ih

lemma lor_shift_add {k b : Nat} (a : Nat) (hb : b < 2 ^ k) :
    a <<< k ||| b = a * 2 ^ k + b := by
  rw [Nat.shiftLeft_eq, mul_comm]
  exact (Nat.mul_add_lt_is_or hb a).symm

/-- Reassembling the four little-endian timestamp bytes with the shift/or
expression of app.py lines 4835-4840 recovers the original 32-bit value. -/
lemma tsRecompose (t : Nat) (ht : t < 4294967296) :
    ((t / 16777216 % 256) <<< 24 ||| (t / 65536 % 256) <<< 16 |||
        (t / 256 % 256) <<< 8 ||| t % 256) &&& 4294967295 = t := by
  have hb0 : t % 256 < 2 ^ 8 := Nat.mod_lt _ (by norm_num)
  have hb1 : t / 256 % 256 < 256 := Nat.mod_lt _ (by norm_num)
  have hb2 : t / 65536 % 256 < 256 := Nat.mod_lt _ (by norm_num)
  have hb3 : t / 16777216 % 256 < 256 := Nat.mod_lt _ (by norm_num)
  have h1 : (t / 256 % 256) <<< 8 ||| t % 256 = t / 256 % 256 * 2 ^ 8 + t % 256 :=
    lor_shift_add _ hb0
  have hlt1 : t / 256 % 256 * 2 ^ 8 + t % 256 < 2 ^ 16 := by
    have := Nat.mul_le_mul_right (2 ^ 8) (Nat.lt_succ_iff.1 hb1)
    omega
  have h2 : (t / 65536 % 256) <<< 16 ||| (t / 256 % 256 * 2 ^ 8 + t % 256) =
      t / 65536 % 256 * 2 ^ 16 + (t / 256 % 256 * 2 ^ 8 + t % 256) :=
    lor_shift_add _ hlt1
  have hlt2 : t / 65536 % 256 * 2 ^ 16 + (t / 256 % 256 * 2 ^ 8 + t % 256) < 2 ^ 24 := by
    have := Nat.mul_le_mul_right (2 ^ 16) (Nat.lt_succ_iff.1 hb2)
    omega
  have h3 : (t / 16777216 % 256) <<< 24 |||
        (t / 65536 % 256 * 2 ^ 16 + (t / 256 % 256 * 2 ^ 8 + t % 256)) =
      t / 16777216 % 256 * 2 ^ 24 +
        (t / 65536 % 256 * 2 ^ 16 + (t / 256 % 256 * 2 ^ 8 + t % 256)) :=
    lor_shift_add _ hlt2
  have hlt3 : t / 16777216 % 256 * 2 ^ 24 +
      (t / 65536 % 256 * 2 ^ 16 + (t / 256 % 256 * 2 ^ 8 + t % 256)) < 2 ^ 32 := by
    have := Nat.mul_le_mul_right (2 ^ 24) (Nat.lt_succ_iff.1 hb3)
    omega
  rw [Nat.lor_assoc, Nat.lor_assoc, h1, h2, h3]
  have hmask : (4294967295 : Nat) = 2 ^ 32 - 1 := by norm_num
  rw [hmask, Nat.and_pow_two_sub_one_of_lt_two_pow hlt3]
  omega

lemma getD_prefix_shift {p : List Nat} {n : Nat} (h : p.length = n)
    (l₂ : List Nat) (k d : Nat) : (p ++ l₂).getD (n + k) d = l₂.getD k d := by
  subst h
  exact getD_append_length_add p l₂ k d

/-- Unfolding `unpack_port29_messages` across one well-formed sub-message:
provided at least one byte follows the 7 fixed bytes (a nonempty msg or a
nonempty remainder), the loop consumes `port ‖ reserved ‖ len ‖ msg ‖ ts`
and conses the message record whose payload starts at the reserved byte. -/
lemma unpackGo_cons (port reserved : Nat) (msg : List Nat) (t : Nat)
    (X : List Nat) (hpos : 0 < msg.length + X.length) (ht : t < 4294967296) :
    unpackGo (port :: reserved :: msg.length :: (msg ++ tsBytes t ++ X)) =
      match unpackGo X with
      | .ok msgs => .ok (⟨port, reserved :: msg.length :: msg, t⟩ :: msgs)
      | .error e => .error e := by
  have hlen : (port :: reserved :: msg.length :: (msg ++ tsBytes t ++ X)).length =
      msg.length + X.length + 7 := by
    simp [tsBytes]
    omega
  have hpre3 : (port :: reserved :: msg.length :: msg).length = msg.length + 3 := by
    simp
  have hpre7 : (port :: reserved :: msg.length :: (msg ++ tsBytes t)).length =
      msg.length + 7 := by
    simp [tsBytes]
  have hshape3 : port :: reserved :: msg.length :: (msg ++ tsBytes t ++ X) =
      (port :: reserved :: msg.length :: msg) ++ (tsBytes t ++ X) := by
    simp [List.append_assoc]
  have hshape7 : port :: reserved :: msg.length :: (msg ++ tsBytes t ++ X) =
      (port :: reserved :: msg.length :: (msg ++ tsBytes t)) ++ X := by
    simp [List.append_assoc]
  have hdrop : List.drop (msg.length + 7)
      (port :: reserved :: msg.length :: (msg ++ tsBytes t ++ X)) = X := by
    rw [hshape7]
    exact List.drop_left' hpre7
  have htake : List.take (msg.length + 2)
      (List.drop 1 (port :: reserved :: msg.length :: (msg ++ tsBytes t ++ X))) =
      reserved :: msg.length :: msg := by
    rw [show msg.length + 2 = msg.length + 1 + 1 from rfl]
    simp only [List.drop_succ_cons, List.drop_zero, List.take_succ_cons]
    rw [List.append_assoc]
    rw [List.take_left' rfl]
  have ht0 : (msg ++ tsBytes t ++ X).getD msg.length 0 = t % 256 := by
    rw [List.append_assoc, List.getD_append_right _ _ _ _ (by omega)]
    simp [tsBytes]
  have ht1 : (msg ++ tsBytes t ++ X).getD (msg.length + 1) 0 = t / 256 % 256 := by
    rw [List.append_assoc, List.getD_append_right _ _ _ _ (by omega)]
    simp [tsBytes]
  have ht2 : (msg ++ tsBytes t ++ X).getD (msg.length + 2) 0 = t / 65536 % 256 := by
    rw [List.append_assoc, List.getD_append_right _ _ _ _ (by omega)]
    simp [tsBytes]
  have ht3 : (msg ++ tsBytes t ++ X).getD (msg.length + 3) 0 = t / 16777216 % 256 := by
    rw [List.append_assoc, List.getD_append_right _ _ _ _ (by omega)]
    simp [tsBytes]
  rw [unpackGo]
  rw [dif_neg (by omega : ¬ (port :: reserved :: msg.length ::
    (msg ++ tsBytes t ++ X)).length ≤ 7)]
  rw [if_neg (by omega : ¬ (port :: reserved :: msg.length ::
    (msg ++ tsBytes t ++ X)).length < 3)]
  simp only [List.getD_cons_zero, List.getD_cons_succ]
  rw [if_neg (by omega), if_neg (by omega)]
  rw [hdrop, htake, ht0, ht1, ht2, ht3, tsRecompose t ht]

/-- The loop consumes a concatenation of well-formed sub-messages followed
by at most 7 trailing bytes, returning exactly one record per sub-message
in order; the final sub-message must carry a nonempty msg (otherwise its
7-byte encoding falls below the loop threshold). -/
lemma unpackGo_mk29 (items : List Port29Input) (tail : List Nat)
    (htail : tail.length ≤ 7)
    (hts : ∀ m ∈ items, m.timestamp < 4294967296)
    (hlast : ∀ m, items.getLast? = some m → m.msg ≠ []) :
    unpackGo (mk29 items ++ tail) = .ok (items.map toMsg) := by
  induction items with
  | nil =>
    simp only [mk29, List.nil_append, List.map_nil]
    rw [unpackGo, dif_pos htail]
  | cons m rest ih =>
    have hshape : mk29 (m :: rest) ++ tail =
        m.port :: m.reserved :: m.msg.length ::
          (m.msg ++ tsBytes m.timestamp ++ (mk29 rest ++ tail)) := by
      simp [mk29, mk29One, List.append_assoc]
    have hpos : 0 < m.msg.length + (mk29 rest ++ tail).length := by
      cases rest with
      | nil =>
        have hne : m.msg ≠ [] := hlast m (by simp)
        have : m.msg.length ≠ 0 := by
          intro h
          exact hne (List.eq_nil_of_length_eq_zero h)
        omega
      | cons r rs =>
        have : (mk29 (r :: rs)).length = r.msg.length + 7 + (mk29 rs).length := by
          simp [mk29, mk29One, tsBytes]
          omega
        simp only [List.length_append]
        omega
    rw [hshape, unpackGo_cons m.port m.reserved m.msg m.timestamp _ hpos
      (hts m (by simp))]
    rw [ih (fun x hx => hts x (by simp [hx]))]
    · simp [toMsg]
    · intro x hx
      cases rest with
      | nil => simp at hx
      | cons r rs =>
        exact hlast x (by rw [List.getLast?_cons_cons]; exact hx)

/-- C4 (corrected): `unpack_port29_messages` on a concatenation of synthetic
sub-messages `port(1) ‖ reserved(1) ‖ len(1) ‖ msg(len) ‖ ts(LE uint32)`,
whose final sub-message has a nonempty msg, returns exactly one message per
sub-message in the original order, with `port` and `timestamp` equal to the
inputs and with `payload` equal to `reserved ‖ len ‖ msg` (the code slices
`payload[i+1 : i+len+3]`, so the reserved and length bytes are included);
and a declared length exceeding the remaining bytes yields the
truncated-container error. -/
theorem c4_port29_unpack_corrected (items : List Port29Input)
    (hbytes : ∀ m ∈ items, m.msg.length ≤ 255 ∧ m.timestamp < 4294967296)
    (hlast : (match items.getLast? with
              | none => true
              | some m => !m.msg.isEmpty) = true) :
    unpack_port29_messages (mk29 items) = .ok (items.map toMsg) ∧
    ∀ payload : List Nat, 7 < payload.length →
      payload.length < payload.getD 2 0 + 3 →
      unpack_port29_messages payload =
        .error "Port 29 message length exceeds payload." := by
  have hlast' : ∀ m, items.getLast? = some m → m.msg ≠ [] := by
    intro m hm
    rw [hm] at hlast
    simpa using hlast
  constructor
  · cases items with
    | nil => rw [mk29, unpack_port29_messages, if_pos rfl]; rfl
    | cons m rest =>
      have hne : mk29 (m :: rest) ≠ [] := by simp [mk29, mk29One]
      rw [unpack_port29_messages, if_neg hne]
      have := unpackGo_mk29 (m :: rest) [] (by simp)
        (fun x hx => (hbytes x hx).2) hlast'
      rwa [List.append_nil] at this
  · intro payload h7 hcut
    have hne : payload ≠ [] := by
      intro h
      rw [h] at h7
      simp at h7
    rw [unpack_port29_messages, if_neg hne, unpackGo,
      dif_neg (by omega), if_neg (by omega), if_pos (by omega)]

/-- Witness for C4: one sub-message (port 1, reserved 0, msg `[5]`,
timestamp 100) unpacks to a single record whose payload is `[0, 1, 5]`,
and a payload whose declared length 200 exceeds the 8 available bytes is
rejected. -/
theorem c4_port29_unpack_corrected_witness :
    unpack_port29_messages (mk29 [⟨1, 0, [5], 100⟩]) =
      .ok [⟨1, [0, 1, 5], 100⟩] ∧
    unpack_port29_messages [0, 0, 200, 0, 0, 0, 0, 0] =
      .error "Port 29 message length exceeds payload." := by
  have h := c4_port29_unpack_corrected [⟨1, 0, [5], 100⟩]
    (by decide) (by decide)
  exact ⟨h.1.trans (by decide), h.2 [0, 0, 200, 0, 0, 0, 0, 0] (by decide) (by decide)⟩

/-- Counterexample for C4 as stated: the record produced for the synthetic
sub-message `port=1, reserved=0, len=1, msg=[5], ts=100` has payload
`[0, 1, 5]`, not the len-byte msg `[5]`; and a single sub-message whose msg
is empty (7 bytes total) is dropped entirely, yielding 0 messages instead
of 1. -/
theorem c4_counterexample :
    unpack_port29_messages [1, 0, 1, 5, 100, 0, 0, 0] ≠
      .ok [⟨1, [5], 100⟩] ∧
    unpack_port29_messages (mk29 [⟨1, 0, [], 100⟩]) = .ok [] := by
  have h1 : unpack_port29_messages [1, 0, 1, 5, 100, 0, 0, 0] =
      .ok [⟨1, [0, 1, 5], 100⟩] := by
    simp [unpack_port29_messages, unpackGo]
    decide
  refine ⟨by rw [h1]; decide, ?_⟩
  simp [unpack_port29_messages, mk29, mk29One, tsBytes, unpackGo]

/-- C9 (confirmed): the loop runs only while more than 7 bytes remain, so
any payload of at most 7 bytes (including the empty one) yields the empty
message list without error, and up to 7 trailing bytes after the last
fully-consumed sub-message are silently ignored. -/
theorem c9_port29_trailing_bytes :
    (∀ payload : List Nat, payload.length ≤ 7 →
      unpack_port29_messages payload = .ok []) ∧
    ∀ (items : List Port29Input) (tail : List Nat),
      (∀ m ∈ items, m.msg.length ≤ 255 ∧ m.timestamp < 4294967296) →
      tail.length ≤ 7 →
      (match items.getLast? with
       | none => true
       | some m => !m.msg.isEmpty) = true →
      unpack_port29_messages (mk29 items ++ tail) = .ok (items.map toMsg) := by
  constructor
  · intro payload hlen
    by_cases h : payload = []
    · rw [unpack_port29_messages, if_pos h]
    · rw [unpack_port29_messages, if_neg h, unpackGo, dif_pos hlen]
  · intro items tail hbytes htail hlast
    have hlast' : ∀ m, items.getLast? = some m → m.msg ≠ [] := by
      intro m hm
      rw [hm] at hlast
      simpa using hlast
    cases items with
    | nil =>
      simp only [mk29, List.nil_append, List.map_nil]
      by_cases h : tail = []
      · rw [unpack_port29_messages, if_pos h]
      · rw [unpack_port29_messages, if_neg h, unpackGo, dif_pos htail]
    | cons m rest =>
      have hne : mk29 (m :: rest) ++ tail ≠ [] := by simp [mk29, mk29One]
      rw [unpack_port29_messages, if_neg hne]
      exact unpackGo_mk29 (m :: rest) tail htail
        (fun x hx => (hbytes x hx).2) hlast'

/-- Witness for C9: the 7-byte payload `[9,9,9,9,9,9,9]` yields no messages,
and one well-formed sub-message followed by 7 garbage bytes still unpacks
to exactly that sub-message. -/
theorem c9_port29_trailing_bytes_witness :
    unpack_port29_messages [9, 9, 9, 9, 9, 9, 9] = .ok [] ∧
    unpack_port29_messages (mk29 [⟨1, 0, [5], 100⟩] ++ [8, 8, 8, 8, 8, 8, 8]) =
      .ok [⟨1, [0, 1, 5], 100⟩] := by
  refine ⟨c9_port29_trailing_bytes.1 [9, 9, 9, 9, 9, 9, 9] (by decide), ?_⟩
  exact (c9_port29_trailing_bytes.2 [⟨1, 0, [5], 100⟩] [8, 8, 8, 8, 8, 8, 8]
    (by decide) (by decide) (by decide)).trans (by decide)

/-- C6 (confirmed): on the byte level (`parse_phy` is the part of
`parse_uplink` that follows base64 decoding), every PHYPayload shorter than
12 bytes is rejected with the invalid-frame error, and every PHYPayload of
length at least 12 whose MHDR message type `(mhdr >> 5) & 0x7` is neither 2
(UnconfirmedUp) nor 4 (ConfirmedUp) is likewise rejected.  The embedding is
a total function over `List Nat`, so no out-of-bounds read is possible; the
length guard precedes every byte access in the source. -/
theorem c6_parse_uplink_rejects (phy : List Nat) :
    (phy.length < 12 → parse_phy phy = .error "PHYPayload too short.") ∧
    (12 ≤ phy.length → ¬ (phy.getD 0 0 / 32 % 8 = 2 ∨ phy.getD 0 0 / 32 % 8 = 4) →
      parse_phy phy = .error "PHYPayload is not an uplink data frame.") := by
  constructor
  · intro h
    rw [parse_phy, if_pos h]
  · intro h hm
    simp only [parse_phy]
    rw [if_neg (by omega), if_pos hm]

/-- Witness for C6: the 1-byte payload `[0]` is too short, and a 12-byte
all-zero payload has message type 0 and is not an uplink data frame. -/
theorem c6_parse_uplink_rejects_witness :
    parse_phy [0] = .error "PHYPayload too short." ∧
    parse_phy [0, 0, 0, 0, 0, 0, 0, 0, 0, 0, 0, 0] =
      .error "PHYPayload is not an uplink data frame." :=
  ⟨(c6_parse_uplink_rejects [0]).1 (by decide),
   (c6_parse_uplink_rejects [0, 0, 0, 0, 0, 0, 0, 0, 0, 0, 0, 0]).2
     (by decide) (by decide)⟩

lemma hexPairs_length : ∀ (cs : List Char) (bs : List Nat),
    hexPairs cs = some bs → 2 * bs.length = cs.length
  | [], bs, h => by
    simp [hexPairs] at h
    simp [← h]
  | [c], bs, h => by
    simp [hexPairs] at h
  | c1 :: c2 :: rest, bs, h => by
    simp only [hexPairs] at h
    cases hv1 : hexVal c1 with
    | none => rw [hv1] at h; simp at h
    | some a =>
      cases hv2 : hexVal c2 with
      | none => rw [hv1, hv2] at h; simp at h
      | some b =>
        cases hr : hexPairs rest with
        | none => rw [hv1, hv2, hr] at h; simp at h
        | some t =>
          rw [hv1, hv2, hr] at h
          simp at h
          have ih := hexPairs_length rest t hr
          rw [← h]
          simp
          omega

/-- The serialized PUSH_DATA body wraps exactly one rxpk:
`{"rxpk":[ <rxpk> ]}`. -/
lemma jdump_rxpk_wrapper (v : Json) :
    (jdump (Json.obj [("rxpk", Json.arr [v])])).data =
      ("\x7b\"rxpk\":[").data ++ (jdump v).data ++ ("]\x7d").data := by
  have h : jdump (Json.obj [("rxpk", Json.arr [v])]) =
      "\x7b\"rxpk\":[" ++ jdump v ++ "]\x7d" := by
    simp only [jdump, jdumpFields, jdumpList, jstring, jstrEscape]
    rw [show String.join ((String.data "rxpk").map jstrEscape) = "rxpk" from rfl]
    apply String.ext
    simp [String.data_append]
  rw [h]
  simp [String.data_append]

/-- C7 (corrected): with the gateway EUI cleaned by removing `:`/`-`
separators and surrounding whitespace (the code calls `str.strip()`, which
the original claim omitted), a 16-hex-character EUI yields
`.ok` of the packet `[0x02, tok1, tok2, 0x00] ‖ EUI(8 bytes) ‖ body`, where
the body is the UTF-8/ASCII JSON `{"rxpk":[rxpk]}` containing exactly that
rxpk; a cleaned EUI whose length is not 16 fails with the invalid-gateway
error.  (A 16-character cleaned EUI with a non-hex character surfaces the
`bytes.fromhex` `ValueError` instead, also out of `normalize_gateway_eui`.) -/
theorem c7_build_push_data_corrected (tok1 tok2 : Nat) (gw : String) (rxpk : Json) :
    (∀ bs : List Nat,
      (pyStrip (removeChar '-' (removeChar ':' gw))).data.length = 16 →
      hexPairs (pyStrip (removeChar '-' (removeChar ':' gw))).data = some bs →
      build_push_data tok1 tok2 gw rxpk =
        .ok ([0x02, tok1, tok2, 0x00] ++ bs ++
          strBytes (jdump (Json.obj [("rxpk", Json.arr [rxpk])]))) ∧
      bs.length = 8) ∧
    ((pyStrip (removeChar '-' (removeChar ':' gw))).data.length ≠ 16 →
      build_push_data tok1 tok2 gw rxpk =
        .error ("Gateway EUI must be 8 bytes (16 hex chars), got " ++
          pyStrip (removeChar '-' (removeChar ':' gw)))) ∧
    (jdump (Json.obj [("rxpk", Json.arr [rxpk])])).data =
      ("\x7b\"rxpk\":[").data ++ (jdump rxpk).data ++ ("]\x7d").data := by
  refine ⟨?_, ?_, jdump_rxpk_wrapper rxpk⟩
  · intro bs hlen hhex
    have hnlen : ¬ ((pyStrip (removeChar '-' (removeChar ':' gw))).length ≠ 16) := by
      simp only [String.length]
      omega
    constructor
    · rw [build_push_data, normalize_gateway_eui]
      rw [if_neg hnlen, hhex]
    · have := hexPairs_length _ _ hhex
      omega
  · intro hlen
    have hnlen : (pyStrip (removeChar '-' (removeChar ':' gw))).length ≠ 16 := by
      simp only [String.length]
      omega
    rw [build_push_data, normalize_gateway_eui, if_pos hnlen]

/-- Witness for C7: a separator-formatted EUI builds the expected packet
with the 8 decoded EUI bytes, and the 3-character EUI `xyz` is refused. -/
theorem c7_build_push_data_corrected_witness :
    (build_push_data 7 9 "01:02:03:04:05:06:07:08" (Json.obj []) =
      .ok ([0x02, 7, 9, 0x00] ++ [1, 2, 3, 4, 5, 6, 7, 8] ++
        strBytes (jdump (Json.obj [("rxpk", Json.arr [Json.obj []])]))) ∧
      ([1, 2, 3, 4, 5, 6, 7, 8] : List Nat).length = 8) ∧
    build_push_data 7 9 "xyz" (Json.obj []) =
      .error ("Gateway EUI must be 8 bytes (16 hex chars), got " ++
        pyStrip (removeChar '-' (removeChar ':' "xyz"))) :=
  ⟨(c7_build_push_data_corrected 7 9 "01:02:03:04:05:06:07:08" (Json.obj [])).1
      [1, 2, 3, 4, 5, 6, 7, 8] (by decide) (by decide),
   (c7_build_push_data_corrected 7 9 "xyz" (Json.obj [])).2.1 (by decide)⟩

/-- Counterexample for C7 as stated: the EUI `"0102030405060708 "` (sixteen
hex characters plus a trailing space) is not exactly 16 hex characters
after stripping only the `:`/`-` separators, so the claim demands the
invalid-gateway failure, yet `build_push_data` succeeds because
`normalize_gateway_eui` additionally strips surrounding whitespace. -/
theorem c7_counterexample :
    (build_push_data 0 0 "0102030405060708 " (Json.obj [])).isOk = true := by
  rfl

lemma xorBytes_length (xs s : List Nat) :
    (xorBytes xs s).length = min xs.length s.length := by
  simp [xorBytes]

lemma xorBytes_xorBytes : ∀ (c s : List Nat), c.length ≤ s.length →
    xorBytes (xorBytes c s) s = c
  | [], _, _ => rfl
  | _ :: _, [], h => by simp at h
  | c :: cs, x :: xs, h => by
    have ih := xorBytes_xorBytes cs xs (by simpa using h)
    simp only [xorBytes, List.zipWith_cons_cons] at ih ⊢
    rw [Nat.xor_assoc, Nat.xor_self, Nat.xor_zero, ih]

lemma encryptBlocks_length (aes : List Nat → List Nat → List Nat)
    (skey devaddr_le : List Nat) (fcnt direction : Nat)
    (haes : ∀ k a, (aes k a).length = 16) :
    ∀ (payload : List Nat) (i : Nat),
      (encryptBlocks aes skey devaddr_le fcnt direction i payload).length =
        payload.length
  | [], _ => by simp [encryptBlocks]
  | b :: bs, i => by
    rw [encryptBlocks]
    have ih := encryptBlocks_length aes skey devaddr_le fcnt direction haes
      ((b :: bs).drop 16) (i + 1)
    simp only [List.length_append, ih, xorBytes_length, haes]
    simp
    omega
  termination_by payload _ => payload.length
  decreasing_by simp [List.length_drop]; omega

/-- `encrypt_frm_payload` never fails and preserves the payload length. -/
lemma encrypt_frm_payload_length (aes : List Nat → List Nat → List Nat)
    (skey devaddr_le : List Nat) (fcnt direction : Nat) (payload : List Nat)
    (haes : ∀ k a, (aes k a).length = 16) :
    (encrypt_frm_payload aes skey devaddr_le fcnt direction payload).length =
      payload.length := by
  rw [encrypt_frm_payload]
  by_cases h : payload = []
  · rw [if_pos h, h]
  · rw [if_neg h]
    exact encryptBlocks_length aes skey devaddr_le fcnt direction haes payload 1

/-- Decrypting what `encrypt_frm_payload` produced, block counter aligned
(`encrypt` numbers blocks from 1, `decrypt` from 0 and adds 1), recovers
the payload as long as every block index stays below 256. -/
lemma decryptBlocks_encryptBlocks (aes : List Nat → List Nat → List Nat)
    (key devaddr_le : List Nat) (fcnt : Nat)
    (haes : ∀ k a, (aes k a).length = 16) :
    ∀ (payload : List Nat) (i : Nat),
      i + (payload.length + 15) / 16 ≤ 255 →
      decryptBlocks aes key devaddr_le fcnt 0 i
        (encryptBlocks aes key devaddr_le fcnt 0 (i + 1) payload) = .ok payload
  | [], i, _ => by
    rw [encryptBlocks, decryptBlocks]
  | b :: bs, i, hbound => by
    have hi : i + 1 ≤ 255 := by
      simp only [List.length_cons] at hbound
      omega
    have hmod : (i + 1) % 256 = i + 1 := Nat.mod_eq_of_lt (by omega)
    have hslen : (aes key (aBlock devaddr_le fcnt (0 % 256) ((i + 1) % 256))).length = 16 :=
      haes _ _
    have hclen : (xorBytes ((b :: bs).take 16)
        (aes key (aBlock devaddr_le fcnt (0 % 256) ((i + 1) % 256)))).length =
        ((b :: bs).take 16).length := by
      rw [xorBytes_length, hslen, List.length_take]
      omega
    have htlen : 0 < ((b :: bs).take 16).length := by
      simp
    obtain ⟨c0, cs, hc⟩ : ∃ c0 cs, xorBytes ((b :: bs).take 16)
        (aes key (aBlock devaddr_le fcnt (0 % 256) ((i + 1) % 256))) = c0 :: cs := by
      cases hx : xorBytes ((b :: bs).take 16)
          (aes key (aBlock devaddr_le fcnt (0 % 256) ((i + 1) % 256))) with
      | nil =>
        rw [hx] at hclen
        simp at hclen
      | cons c0 cs => exact ⟨c0, cs, rfl⟩
    have hrest := decryptBlocks_encryptBlocks aes key devaddr_le fcnt haes
      ((b :: bs).drop 16) (i + 1)
      (by
        simp only [List.length_drop, List.length_cons]
        simp only [List.length_cons] at hbound
        omega)
    have htake : (xorBytes ((b :: bs).take 16)
          (aes key (aBlock devaddr_le fcnt (0 % 256) ((i + 1) % 256))) ++
        encryptBlocks aes key devaddr_le fcnt 0 (i + 1 + 1) ((b :: bs).drop 16)).take 16 =
        xorBytes ((b :: bs).take 16)
          (aes key (aBlock devaddr_le fcnt (0 % 256) ((i + 1) % 256))) := by
      by_cases hlong : 16 ≤ (b :: bs).length
      · apply List.take_left'
        rw [hclen, List.length_take]
        omega
      · have hdrop0 : (b :: bs).drop 16 = [] := List.drop_eq_nil_of_le (by omega)
        rw [hdrop0, encryptBlocks, List.append_nil]
        apply List.take_of_length_le
        rw [hclen, List.length_take]
        omega
    have hdrop : (xorBytes ((b :: bs).take 16)
          (aes key (aBlock devaddr_le fcnt (0 % 256) ((i + 1) % 256))) ++
        encryptBlocks aes key devaddr_le fcnt 0 (i + 1 + 1) ((b :: bs).drop 16)).drop 16 =
        encryptBlocks aes key devaddr_le fcnt 0 (i + 1 + 1) ((b :: bs).drop 16) := by
      by_cases hlong : 16 ≤ (b :: bs).length
      · apply List.drop_left'
        rw [hclen, List.length_take]
        omega
      · have hdrop0 : (b :: bs).drop 16 = [] := List.drop_eq_nil_of_le (by omega)
        rw [hdrop0, encryptBlocks]
        apply List.drop_eq_nil_of_le
        rw [List.length_append, hclen, List.length_take]
        simp
    have hxor : xorBytes (xorBytes ((b :: bs).take 16)
          (aes key (aBlock devaddr_le fcnt (0 % 256) ((i + 1) % 256))))
          (aes key (aBlock devaddr_le fcnt (0 % 256) ((i + 1) % 256))) =
        (b :: bs).take 16 := by
      apply xorBytes_xorBytes
      rw [hslen, List.length_take]
      omega
    have hsame : aes key (aBlock devaddr_le fcnt (0 % 2) (i + 1)) =
        aes key (aBlock devaddr_le fcnt (0 % 256) ((i + 1) % 256)) := by
      rw [hmod]
    rw [encryptBlocks, hc, List.cons_append, decryptBlocks, if_neg (by omega),
      ← List.cons_append, ← hc, hdrop, hrest]
    simp only [htake, hsame, hxor, List.take_append_drop]
  termination_by payload _ _ => payload.length
  decreasing_by simp [List.length_drop]; omega

/-- `decryptBlocks` succeeds whenever every processed block index stays at
or below 255. -/
lemma decryptBlocks_ok (aes : List Nat → List Nat → List Nat)
    (key devaddr_le : List Nat) (fcnt direction : Nat) :
    ∀ (c : List Nat) (i : Nat), i + (c.length + 15) / 16 ≤ 255 →
      (decryptBlocks aes key devaddr_le fcnt direction i c).isOk = true
  | [], i, _ => by
    rw [decryptBlocks]
    rfl
  | b :: bs, i, hbound => by
    have hrec := decryptBlocks_ok aes key devaddr_le fcnt direction
      ((b :: bs).drop 16) (i + 1)
      (by
        simp only [List.length_drop, List.length_cons]
        simp only [List.length_cons] at hbound
        omega)
    rw [decryptBlocks, if_neg (by
      simp only [List.length_cons] at hbound
      omega)]
    cases hrw : decryptBlocks aes key devaddr_le fcnt direction (i + 1)
        ((b :: bs).drop 16) with
    | ok out => rfl
    | error e =>
      rw [hrw] at hrec
      simp [Except.isOk, Except.toBool] at hrec
  termination_by c _ _ => c.length
  decreasing_by simp [List.length_drop]; omega

/-- `decryptBlocks` raises the bytearray range error as soon as the block
counter would reach 256, which happens exactly when more than
`255 - i` blocks remain. -/
lemma decryptBlocks_overflow (aes : List Nat → List Nat → List Nat)
    (key devaddr_le : List Nat) (fcnt direction : Nat) :
    ∀ (c : List Nat) (i : Nat), c ≠ [] → 256 ≤ i + (c.length + 15) / 16 →
      decryptBlocks aes key devaddr_le fcnt direction i c =
        .error "byte must be in range(0, 256)"
  | [], _, hne, _ => absurd rfl hne
  | b :: bs, i, _, hbound => by
    by_cases hi : 255 < i + 1
    · rw [decryptBlocks, if_pos hi]
    · have hlen : 17 ≤ bs.length + 1 := by
        have hb := hbound
        simp only [List.length_cons] at hb
        omega
      have hrec := decryptBlocks_overflow aes key devaddr_le fcnt direction
        ((b :: bs).drop 16) (i + 1)
        (by
          intro h
          have h2 := congrArg List.length h
          simp only [List.length_drop, List.length_cons, List.length_nil] at h2
          omega)
        (by
          simp only [List.length_drop, List.length_cons]
          simp only [List.length_cons] at hbound
          omega)
      rw [decryptBlocks, if_neg hi, hrec]
  termination_by c _ _ _ => c.length
  decreasing_by simp [List.length_drop]; omega

/-- C1 (corrected): for every AES block function producing 16-byte blocks,
16-byte-or-otherwise key, 4-byte little-endian DevAddr, 32-bit frame
counter and application payload of at most 4080 bytes (255 AES blocks),
decrypting the generator's FRMPayload encryption with the same parameters
and direction 0 recovers the payload exactly.  (For longer payloads the
decryptor raises instead of returning — see C8 — so the bound is
necessary.) -/
theorem c1_encrypt_decrypt_roundtrip (aes : List Nat → List Nat → List Nat)
    (haes : ∀ k a, (aes k a).length = 16) (key devaddr_le : List Nat)
    (_hd : devaddr_le.length = 4) (fcnt : Nat) (hf : fcnt < 4294967296)
    (payload : List Nat) (hp : payload.length ≤ 4080) :
    lorawan_decrypt_payload aes key devaddr_le fcnt
      (encrypt_frm_payload aes key devaddr_le fcnt 0 payload) 0 = .ok payload := by
  by_cases hnil : payload = []
  · subst hnil
    rw [encrypt_frm_payload, if_pos rfl, lorawan_decrypt_payload, if_pos rfl]
  · have hlen : (encrypt_frm_payload aes key devaddr_le fcnt 0 payload).length =
        payload.length :=
      encrypt_frm_payload_length aes key devaddr_le fcnt 0 payload haes
    have hcne : encrypt_frm_payload aes key devaddr_le fcnt 0 payload ≠ [] := by
      intro h
      rw [h] at hlen
      exact hnil (List.eq_nil_of_length_eq_zero hlen.symm)
    rw [lorawan_decrypt_payload, if_neg hcne, if_neg (by omega)]
    rw [encrypt_frm_payload, if_neg hnil]
    exact decryptBlocks_encryptBlocks aes key devaddr_le fcnt haes payload 0
      (by omega)

/-- Witness for C1: round trip of the 3-byte payload `[9, 8, 7]` under the
constant block function. -/
theorem c1_encrypt_decrypt_roundtrip_witness :
    lorawan_decrypt_payload constAes [1, 2] [0, 0, 0, 0] 5
      (encrypt_frm_payload constAes [1, 2] [0, 0, 0, 0] 5 0 [9, 8, 7]) 0 =
      .ok [9, 8, 7] :=
  c1_encrypt_decrypt_roundtrip constAes (fun _ _ => rfl) [1, 2] [0, 0, 0, 0]
    rfl 5 (by decide) [9, 8, 7] (by decide)

/-- Counterexample for C1 as stated: for a 4081-byte payload (256 AES
blocks), `lorawan_decrypt_payload` raises the bytearray range error instead
of returning the payload, because it assigns the unmasked block counter
`i + 1 = 256` into a single byte. -/
theorem c1_counterexample :
    lorawan_decrypt_payload constAes [] [0, 0, 0, 0] 0
      (encrypt_frm_payload constAes [] [0, 0, 0, 0] 0 0 (List.replicate 4081 0)) 0 ≠
      .ok (List.replicate 4081 0) := by
  have hlen : (encrypt_frm_payload constAes [] [0, 0, 0, 0] 0 0
      (List.replicate 4081 0)).length = 4081 := by
    rw [encrypt_frm_payload_length constAes [] [0, 0, 0, 0] 0 0
      (List.replicate 4081 0) (fun _ _ => rfl)]
    exact List.length_replicate 4081 0
  have hcne : encrypt_frm_payload constAes [] [0, 0, 0, 0] 0 0
      (List.replicate 4081 0) ≠ [] := by
    intro h
    rw [h] at hlen
    simp at hlen
  rw [lorawan_decrypt_payload, if_neg hcne, if_neg (by omega)]
  rw [decryptBlocks_overflow constAes [] [0, 0, 0, 0] 0 0 _ 0 hcne (by omega)]
  intro h
  cases h

/-- C8 (confirmed): with a 32-bit frame counter, `lorawan_decrypt_payload`
returns normally for every payload of at most 255 AES blocks (4080 bytes)
and raises for every longer payload (the unmasked `a_block[15] = i + 1`
assignment), whereas the generator's `encrypt_frm_payload` masks the block
index with `0xFF`, never fails, and returns a ciphertext of the payload's
length for payloads of any size. -/
theorem c8_decrypt_block_counter_overflow (aes : List Nat → List Nat → List Nat)
    (haes : ∀ k a, (aes k a).length = 16) (key devaddr_le : List Nat)
    (fcnt : Nat) (hf : fcnt < 4294967296) (direction : Nat) (payload : List Nat) :
    (payload.length ≤ 4080 →
      (lorawan_decrypt_payload aes key devaddr_le fcnt payload direction).isOk = true) ∧
    (4080 < payload.length →
      lorawan_decrypt_payload aes key devaddr_le fcnt payload direction =
        .error "byte must be in range(0, 256)") ∧
    (encrypt_frm_payload aes key devaddr_le fcnt direction payload).length =
      payload.length := by
  refine ⟨?_, ?_, encrypt_frm_payload_length aes key devaddr_le fcnt direction
    payload haes⟩
  · intro hp
    by_cases hnil : payload = []
    · rw [lorawan_decrypt_payload, if_pos hnil]
      rfl
    · rw [lorawan_decrypt_payload, if_neg hnil, if_neg (by omega)]
      exact decryptBlocks_ok aes key devaddr_le fcnt direction payload 0 (by omega)
  · intro hp
    have hnil : payload ≠ [] := by
      intro h
      rw [h] at hp
      simp at hp
    rw [lorawan_decrypt_payload, if_neg hnil, if_neg (by omega)]
    exact decryptBlocks_overflow aes key devaddr_le fcnt direction payload 0
      hnil (by omega)

/-- Witness for C8: on a 1-byte payload decryption returns normally, on a
4081-byte payload it raises, and encryption of the 4081-byte payload still
returns a 4081-byte ciphertext. -/
theorem c8_decrypt_block_counter_overflow_witness :
    ((lorawan_decrypt_payload constAes [] [0, 0, 0, 0] 0 [1] 0).isOk = true) ∧
    (lorawan_decrypt_payload constAes [] [0, 0, 0, 0] 0 (List.replicate 4081 0) 0 =
      .error "byte must be in range(0, 256)") ∧
    (encrypt_frm_payload constAes [] [0, 0, 0, 0] 0 0
      (List.replicate 4081 0)).length = (List.replicate 4081 0).length := by
  have h1 := c8_decrypt_block_counter_overflow constAes (fun _ _ => rfl)
    [] [0, 0, 0, 0] 0 (by decide) 0 [1]
  have h2 := c8_decrypt_block_counter_overflow constAes (fun _ _ => rfl)
    [] [0, 0, 0, 0] 0 (by decide) 0 (List.replicate 4081 0)
  exact ⟨h1.1 (by decide), h2.2.1 (by rw [List.length_replicate]; omega), h2.2.2⟩

/-- C2 (corrected): if some DevAddr among the scanned uplinks has no
credentials entry, or either session key is absent, empty, or not exactly
32 characters long, the decode action refuses the whole batch up front with
the missing-keys outcome listing that DevAddr, emits zero rows, and the
outcome is computed before (and independently of) the record list.  (The
original claim said "not exactly 32 hex characters"; `get_missing_keys`
checks only the length, not hex validity — see the counterexample.) -/
theorem c2_missing_keys_refusal (aes : List Nat → List Nat → List Nat)
    (decoder : List Nat → Option Nat → String → Json → Except String Json)
    (parsed : List UplinkRecord) (devaddrs : List String)
    (credentials : String → Option CredEntry) (d : String)
    (hd : d ∈ devaddrs)
    (hbad : match credentials d with
      | none => True
      | some e => e.nwk_skey.getD "" = "" ∨ e.app_skey.getD "" = "" ∨
          (e.nwk_skey.getD "").length ≠ 32 ∨ (e.app_skey.getD "").length ≠ 32) :
    d ∈ get_missing_keys devaddrs credentials ∧
    decode_action aes decoder parsed devaddrs credentials =
      .missingKeys (get_missing_keys devaddrs credentials) ∧
    decode_action aes decoder parsed devaddrs credentials =
      decode_action aes decoder [] devaddrs credentials := by
  have hmem : d ∈ get_missing_keys devaddrs credentials := by
    rw [get_missing_keys, List.mem_filter]
    refine ⟨hd, ?_⟩
    cases hcred : credentials d with
    | none => simp [hcred]
    | some e =>
      rw [hcred] at hbad
      simp only [hcred, Option.getD_some]
      rcases hbad with h | h | h | h <;> simp [h]
  have hne : ¬ (get_missing_keys devaddrs credentials).isEmpty := by
    cases hmk : get_missing_keys devaddrs credentials with
    | nil => rw [hmk] at hmem; simp at hmem
    | cons a l => simp
  refine ⟨hmem, ?_, ?_⟩
  · rw [decode_action, if_pos hne]
  · rw [decode_action, if_pos hne, decode_action, if_pos hne]

/-- Witness for C2: with an empty credential store, decoding a batch whose
only DevAddr is `26011BDA` is refused with that DevAddr listed. -/
theorem c2_missing_keys_refusal_witness :
    "26011BDA" ∈ get_missing_keys ["26011BDA"] (fun _ => none) ∧
    decode_action constAes (fun _ _ _ _ => .ok Json.null)
        [⟨"0102030405060708", Json.obj []⟩] ["26011BDA"] (fun _ => none) =
      .missingKeys (get_missing_keys ["26011BDA"] (fun _ => none)) ∧
    decode_action constAes (fun _ _ _ _ => .ok Json.null)
        [⟨"0102030405060708", Json.obj []⟩] ["26011BDA"] (fun _ => none) =
      decode_action constAes (fun _ _ _ _ => .ok Json.null) []
        ["26011BDA"] (fun _ => none) :=
  c2_missing_keys_refusal constAes (fun _ _ _ _ => .ok Json.null)
    [⟨"0102030405060708", Json.obj []⟩] ["26011BDA"] (fun _ => none)
    "26011BDA" (by decide) trivial

/-- Counterexample for C2 as stated: a NwkSKey of 32 `Z` characters is not
"exactly 32 hex characters", yet `get_missing_keys` accepts it (only the
length is checked) and the decode action proceeds instead of refusing. -/
theorem c2_counterexample :
    get_missing_keys ["26011BDA"]
      (fun _ => some ⟨some "ZZZZZZZZZZZZZZZZZZZZZZZZZZZZZZZZ",
        some "00000000000000000000000000000000"⟩) = [] ∧
    decode_action constAes (fun _ _ _ _ => .ok Json.null) [] ["26011BDA"]
      (fun _ => some ⟨some "ZZZZZZZZZZZZZZZZZZZZZZZZZZZZZZZZ",
        some "00000000000000000000000000000000"⟩) = .decoded [] := by
  constructor
  · rfl
  · rfl

lemma scanLine_value_ne_skip (n : Nat) (v : Json) :
    scanLine n (.value v) ≠ .skip := by
  intro h
  cases v <;> simp only [scanLine] at h <;>
    try exact LineOutcome.noConfusion h
  case obj fields =>
    split at h
    · exact LineOutcome.noConfusion h
    · split at h
      · split at h
        · exact LineOutcome.noConfusion h
        · split at h
          · exact LineOutcome.noConfusion h
          · exact LineOutcome.noConfusion h
          · exact LineOutcome.noConfusion h
      · exact LineOutcome.noConfusion h

/-- Every non-blank line of a successful scan contributes exactly one unit:
either a parsed record or one per-line error message. -/
lemma scanLines_count : ∀ (lines : List ScanLine) (n : Nat)
    (p : List UplinkRecord) (g d errs : List String),
    scanLines n lines = .ok (p, g, d, errs) →
    errs.length + p.length = (lines.filter (fun l => !l.isBlank)).length := by
  intro lines
  induction lines with
  | nil =>
    intro n p g d errs h
    simp only [scanLines] at h
    obtain ⟨hp, hg, hd, he⟩ := by
      simpa using h
    simp [← hp, ← he]
  | cons l rest ih =>
    intro n p g d errs h
    rw [scanLines] at h
    cases hout : scanLine n l with
    | crash m =>
      rw [hout] at h
      simp at h
    | skip =>
      rw [hout] at h
      cases l with
      | blank =>
        cases hrec : scanLines (n + 1) rest with
        | error m => rw [hrec] at h; simp at h
        | ok q =>
          obtain ⟨p', g', d', e'⟩ := q
          rw [hrec] at h
          simp only [Except.ok.injEq, Prod.mk.injEq] at h
          obtain ⟨hp, _, _, he⟩ := h
          subst hp
          subst he
          simpa [ScanLine.isBlank] using ih (n + 1) p' g' d' e' hrec
      | invalidUtf8 => simp [scanLine] at hout
      | badJson => simp [scanLine] at hout
      | value v => exact absurd hout (scanLine_value_ne_skip n v)
    | err m =>
      rw [hout] at h
      cases hrec : scanLines (n + 1) rest with
      | error m2 => rw [hrec] at h; simp at h
      | ok q =>
        obtain ⟨p', g', d', e'⟩ := q
        rw [hrec] at h
        simp only [Except.ok.injEq, Prod.mk.injEq] at h
        obtain ⟨hp, _, _, he⟩ := h
        subst hp
        subst he
        have hblank : l.isBlank = false := by
          cases l with
          | blank => simp [scanLine] at hout
          | invalidUtf8 => rfl
          | badJson => rfl
          | value v => rfl
        have := ih (n + 1) p' g' d' e' hrec
        rw [List.filter_cons]
        simp only [hblank, Bool.not_false, if_true, List.length_cons, List.length_cons]
        omega
    | record r gw da =>
      rw [hout] at h
      cases hrec : scanLines (n + 1) rest with
      | error m2 => rw [hrec] at h; simp at h
      | ok q =>
        obtain ⟨p', g', d', e'⟩ := q
        rw [hrec] at h
        simp only [Except.ok.injEq, Prod.mk.injEq] at h
        obtain ⟨hp, _, _, he⟩ := h
        subst he
        have hblank : l.isBlank = false := by
          cases l with
          | blank => simp [scanLine] at hout
          | invalidUtf8 => rfl
          | badJson => rfl
          | value v => rfl
        have := ih (n + 1) p' g' d' e' hrec
        rw [List.filter_cons, ← hp]
        simp only [hblank, Bool.not_false, if_true, List.length_cons]
        omega

/-- C3 (corrected): in a scan that completes without an uncaught exception,
every non-blank line yields exactly one parsed record or one per-line error
(invalid lines are reported and excluded), but the `/scan` request succeeds
only when there is at least one valid record AND no line was invalid: any
per-line validation error refuses the whole scan (the original claim said
the scan fails only when zero valid records remain). -/
theorem c3_scan_error_refusal (lines : List ScanLine) (p : List UplinkRecord)
    (g d errs : List String)
    (h : scan_logfile lines = .ok (p, g, d, errs)) :
    errs.length + p.length = (lines.filter (fun l => !l.isBlank)).length ∧
    ((scan_outcome lines).isOk = true ↔ (errs = [] ∧ p ≠ [])) := by
  have hlines : ∃ g0 d0, scanLines 1 lines = .ok (p, g0, d0, errs) := by
    rw [scan_logfile] at h
    cases hrec : scanLines 1 lines with
    | error m => rw [hrec] at h; simp at h
    | ok q =>
      obtain ⟨p', g', d', e'⟩ := q
      rw [hrec] at h
      simp only [Except.ok.injEq, Prod.mk.injEq] at h
      obtain ⟨hp, _, _, he⟩ := h
      exact ⟨g', d', by rw [hp, he]⟩
  obtain ⟨g0, d0, hsl⟩ := hlines
  refine ⟨scanLines_count lines 1 p g0 d0 errs hsl, ?_⟩
  rw [scan_outcome, h]
  dsimp only
  by_cases he : errs.isEmpty
  · rw [if_neg (by simp [he])]
    by_cases hp : p.isEmpty
    · rw [if_pos hp]
      simp only [Except.isOk, Except.toBool]
      constructor
      · intro hfalse
        exact absurd hfalse (by simp)
      · intro ⟨_, hpne⟩
        exact absurd (List.isEmpty_iff.mp hp) hpne
    · rw [if_neg hp]
      simp only [Except.isOk, Except.toBool]
      constructor
      · intro _
        exact ⟨List.isEmpty_iff.mp he, by simpa using hp⟩
      · intro _
        trivial
  · rw [if_pos (by simpa using he)]
    simp only [Except.isOk, Except.toBool]
    constructor
    · intro hfalse
      exact absurd hfalse (by simp)
    · intro ⟨hee, _⟩
      exact absurd (by simp [hee] : errs.isEmpty = true) he

/-- Witness for C3: a single valid line scans to one record, no errors, and
the scan request succeeds. -/
theorem c3_scan_error_refusal_witness :
    (([] : List String).length +
      ([⟨"0102030405060708", Json.obj [("data", Json.str "AQIDBAU=")]⟩] :
        List UplinkRecord).length =
      (([ScanLine.value (Json.obj [("gatewayEui", Json.str "0102030405060708"),
        ("rxpk", Json.obj [("data", Json.str "AQIDBAU=")])])]).filter
          (fun l => !l.isBlank)).length) ∧
    ((scan_outcome [ScanLine.value (Json.obj
        [("gatewayEui", Json.str "0102030405060708"),
         ("rxpk", Json.obj [("data", Json.str "AQIDBAU=")])])]).isOk = true ↔
      (([] : List String) = [] ∧
        ([⟨"0102030405060708", Json.obj [("data", Json.str "AQIDBAU=")]⟩] :
          List UplinkRecord) ≠ [])) :=
  c3_scan_error_refusal
    [ScanLine.value (Json.obj [("gatewayEui", Json.str "0102030405060708"),
      ("rxpk", Json.obj [("data", Json.str "AQIDBAU=")])])]
    [⟨"0102030405060708", Json.obj [("data", Json.str "AQIDBAU=")]⟩]
    ["0102030405060708"] ["05040302"] [] (by rfl)

/-- Counterexample for C3 as stated: one valid line plus one invalid line
yields one parsed record and one per-line error, yet the scan request fails
(the claim says it should still succeed over the valid records). -/
theorem c3_counterexample :
    scan_logfile [ScanLine.value (Json.obj
        [("gatewayEui", Json.str "0102030405060708"),
         ("rxpk", Json.obj [("data", Json.str "AQIDBAU=")])]),
      ScanLine.badJson] =
      .ok ([⟨"0102030405060708", Json.obj [("data", Json.str "AQIDBAU=")]⟩],
        ["0102030405060708"], ["05040302"], ["Line 2: JSON decode error."]) ∧
    (scan_outcome [ScanLine.value (Json.obj
        [("gatewayEui", Json.str "0102030405060708"),
         ("rxpk", Json.obj [("data", Json.str "AQIDBAU=")])]),
      ScanLine.badJson]).isOk = false := by
  constructor
  · rfl
  · rfl

lemma replayStep_index (rand : Nat → Nat × Nat) (sendOk : Nat → Bool)
    (override : Bool) (idx : Nat) (rec : UplinkRecord) :
    ((replayStep rand sendOk override idx rec).1).index = some idx := by
  rw [replayStep]
  cases build_push_data (rand idx).1 (rand idx).2 rec.gateway_eui
      (if override then overrideRxpk rec.rxpk else rec.rxpk) with
  | error e => rfl
  | ok p =>
    by_cases h : sendOk idx
    · simp [h]
    · simp [h]

lemma replayStep_sentOrError (rand : Nat → Nat × Nat) (sendOk : Nat → Bool)
    (override : Bool) (idx : Nat) (rec : UplinkRecord) :
    isSentOrError (replayStep rand sendOk override idx rec).1 = true := by
  rw [replayStep]
  cases build_push_data (rand idx).1 (rand idx).2 rec.gateway_eui
      (if override then overrideRxpk rec.rxpk else rec.rxpk) with
  | error e => rfl
  | ok p =>
    by_cases h : sendOk idx
    · simp [h, isSentOrError]
    · simp [h, isSentOrError]

lemma runReplayLoop_log (rand : Nat → Nat × Nat) (sendOk : Nat → Bool)
    (override : Bool) : ∀ (rest : List UplinkRecord) (idx : Nat)
    (job : ReplayJob),
    (runReplayLoop rand sendOk override idx rest job).log_lines =
      job.log_lines ++ replayLines rand sendOk override idx rest := by
  intro rest
  induction rest with
  | nil => intro idx job; simp [runReplayLoop, replayLines]
  | cons rec rs ih =>
    intro idx job
    rw [runReplayLoop, replayLines, ih]
    simp [List.append_assoc]

lemma runReplayLoop_status (rand : Nat → Nat × Nat) (sendOk : Nat → Bool)
    (override : Bool) : ∀ (rest : List UplinkRecord) (idx : Nat)
    (job : ReplayJob),
    (runReplayLoop rand sendOk override idx rest job).status = job.status := by
  intro rest
  induction rest with
  | nil => intro idx job; rfl
  | cons rec rs ih =>
    intro idx job
    rw [runReplayLoop, ih]

lemma replayLines_indices (rand : Nat → Nat × Nat) (sendOk : Nat → Bool)
    (override : Bool) : ∀ (rest : List UplinkRecord) (idx : Nat),
    (replayLines rand sendOk override idx rest).map ReplayLogLine.index =
      (List.range' (idx + 1) rest.length).map some := by
  intro rest
  induction rest with
  | nil => intro idx; rfl
  | cons rec rs ih =>
    intro idx
    rw [replayLines, List.map_cons, replayStep_index, ih]
    simp only [List.length_cons]
    rw [List.range'_succ, List.map_cons]

lemma replayLines_filter (rand : Nat → Nat × Nat) (sendOk : Nat → Bool)
    (override : Bool) : ∀ (rest : List UplinkRecord) (idx : Nat),
    (replayLines rand sendOk override idx rest).filter isSentOrError =
      replayLines rand sendOk override idx rest := by
  intro rest
  induction rest with
  | nil => intro idx; rfl
  | cons rec rs ih =>
    intro idx
    rw [replayLines, List.filter_cons]
    simp only [replayStep_sentOrError, if_true]
    rw [ih]

/-- C5 (confirmed): resuming a `stopped` job whose scan result is still
cached creates a fresh job (new cache entry/token) starting at the stopped
job's `current_index`, carrying forward `sent`, `errors`, the log lines and
the override flag; an uninterrupted run of the new worker appends exactly
one `Sent`-or-`Error` line per remaining record with indices
`current_index + 1 .. total` (so no earlier record is re-sent), ends in
status `done`, and — given that the stopped job's log held exactly the
lines `1 .. current_index` — the concatenated log's `Sent`/`Error` lines
carry exactly the indices `1 .. total`, strictly increasing. -/
theorem c5_replay_resume_correct (rand : Nat → Nat × Nat)
    (sendOk : Nat → Bool) (parsed : List UplinkRecord) (job : ReplayJob)
    (c : Nat) (hstatus : job.status = "stopped") (hcur : job.current_index = c)
    (hc : c ≤ parsed.length)
    (hold : (job.log_lines.filter isSentOrError).map ReplayLogLine.index =
      (List.range' 1 c).map some) :
    replay_resume (some job) (some parsed) =
      some (store_replay_job parsed.length job.host job.port job.delay_ms c
        job.sent job.errors job.log_lines job.override_rxpk) ∧
    (run_replay_job rand sendOk parsed
      (store_replay_job parsed.length job.host job.port job.delay_ms c
        job.sent job.errors job.log_lines job.override_rxpk)).status = "done" ∧
    (run_replay_job rand sendOk parsed
      (store_replay_job parsed.length job.host job.port job.delay_ms c
        job.sent job.errors job.log_lines job.override_rxpk)).log_lines =
      job.log_lines ++
        replayLines rand sendOk job.override_rxpk c (parsed.drop c) ∧
    (replayLines rand sendOk job.override_rxpk c (parsed.drop c)).map
        ReplayLogLine.index =
      (List.range' (c + 1) (parsed.length - c)).map some ∧
    ((job.log_lines ++
        replayLines rand sendOk job.override_rxpk c (parsed.drop c)).filter
          isSentOrError).map ReplayLogLine.index =
      (List.range' 1 parsed.length).map some := by
  have hfinal_log := runReplayLoop_log rand sendOk job.override_rxpk
    (parsed.drop c) c
    (store_replay_job parsed.length job.host job.port job.delay_ms c
      job.sent job.errors job.log_lines job.override_rxpk)
  have hfinal_status := runReplayLoop_status rand sendOk job.override_rxpk
    (parsed.drop c) c
    (store_replay_job parsed.length job.host job.port job.delay_ms c
      job.sent job.errors job.log_lines job.override_rxpk)
  refine ⟨?_, ?_, ?_, ?_, ?_⟩
  · simp only [replay_resume]
    rw [if_neg (by simp [hstatus])]
    rw [hcur, Nat.min_eq_left hc]
  · rw [run_replay_job]
    rw [show (store_replay_job parsed.length job.host job.port job.delay_ms c
      job.sent job.errors job.log_lines job.override_rxpk).start_index = c
      from rfl,
      show (store_replay_job parsed.length job.host job.port job.delay_ms c
      job.sent job.errors job.log_lines job.override_rxpk).override_rxpk =
        job.override_rxpk from rfl]
    rw [if_pos (by rw [hfinal_status]; rfl)]
  · rw [run_replay_job]
    rw [show (store_replay_job parsed.length job.host job.port job.delay_ms c
      job.sent job.errors job.log_lines job.override_rxpk).start_index = c
      from rfl,
      show (store_replay_job parsed.length job.host job.port job.delay_ms c
      job.sent job.errors job.log_lines job.override_rxpk).override_rxpk =
        job.override_rxpk from rfl]
    rw [if_pos (by rw [hfinal_status]; rfl)]
    exact hfinal_log
  · rw [replayLines_indices, List.length_drop]
  · rw [List.filter_append, List.map_append, hold,
      replayLines_filter, replayLines_indices, List.length_drop,
      ← List.map_append]
    rw [show c + 1 = 1 + c from by omega, List.range'_append_1]
    rw [show parsed.length - c + c = parsed.length from by omega]

/-- Witness for C5: a job stopped after record 1 of 2, with the matching
one-line log, resumes into a fresh job that replays exactly record 2. -/
theorem c5_replay_resume_correct_witness :
    replay_resume (some (ReplayJob.mk "stopped" 2 1 0 "127.0.0.1" 1700 50 0 1
        [⟨some 1, "Sent", "g", none⟩] false))
      (some [⟨"g1", Json.obj []⟩, ⟨"g2", Json.obj []⟩]) =
      some (store_replay_job 2 "127.0.0.1" 1700 50 1 1 0
        [⟨some 1, "Sent", "g", none⟩] false) ∧
    (run_replay_job (fun _ => (0, 0)) (fun _ => true)
      [⟨"g1", Json.obj []⟩, ⟨"g2", Json.obj []⟩]
      (store_replay_job 2 "127.0.0.1" 1700 50 1 1 0
        [⟨some 1, "Sent", "g", none⟩] false)).status = "done" ∧
    (run_replay_job (fun _ => (0, 0)) (fun _ => true)
      [⟨"g1", Json.obj []⟩, ⟨"g2", Json.obj []⟩]
      (store_replay_job 2 "127.0.0.1" 1700 50 1 1 0
        [⟨some 1, "Sent", "g", none⟩] false)).log_lines =
      ([⟨some 1, "Sent", "g", none⟩] : List ReplayLogLine) ++
        replayLines (fun _ => (0, 0)) (fun _ => true) false 1
          (([⟨"g1", Json.obj []⟩, ⟨"g2", Json.obj []⟩] : List UplinkRecord).drop 1) ∧
    (replayLines (fun _ => (0, 0)) (fun _ => true) false 1
        (([⟨"g1", Json.obj []⟩, ⟨"g2", Json.obj []⟩] : List UplinkRecord).drop 1)).map
        ReplayLogLine.index =
      (List.range' 2 1).map some ∧
    ((([⟨some 1, "Sent", "g", none⟩] : List ReplayLogLine) ++
        replayLines (fun _ => (0, 0)) (fun _ => true) false 1
          (([⟨"g1", Json.obj []⟩, ⟨"g2", Json.obj []⟩] : List UplinkRecord).drop 1)).filter
          isSentOrError).map ReplayLogLine.index =
      (List.range' 1 2).map some := by
  have h := c5_replay_resume_correct (fun _ => (0, 0)) (fun _ => true)
    [⟨"g1", Json.obj []⟩, ⟨"g2", Json.obj []⟩]
    (ReplayJob.mk "stopped" 2 1 0 "127.0.0.1" 1700 50 0 1
      [⟨some 1, "Sent", "g", none⟩] false) 1 rfl rfl (by decide) (by rfl)
  exact h

/-- C10 (confirmed): resume is a no-op when the token is unknown, the job
is not `stopped`, or the scan result has expired; when it proceeds, the
fresh job's start index is the old `current_index` clamped to the record
count. -/
theorem c10_resume_noop_guards :
    (∀ cached, replay_resume none cached = none) ∧
    (∀ (job : ReplayJob) cached, job.status ≠ "stopped" →
      replay_resume (some job) cached = none) ∧
    (∀ job : ReplayJob, replay_resume (some job) none = none) ∧
    (∀ (job : ReplayJob) (parsed : List UplinkRecord) (j' : ReplayJob),
      replay_resume (some job) (some parsed) = some j' →
      j'.start_index = min job.current_index parsed.length ∧
      j'.start_index ≤ parsed.length) := by
  refine ⟨fun _ => rfl, ?_, ?_, ?_⟩
  · intro job cached hst
    simp only [replay_resume]
    rw [if_pos hst]
  · intro job
    simp only [replay_resume]
    by_cases hst : job.status ≠ "stopped"
    · rw [if_pos hst]
    · rw [if_neg hst]
  · intro job parsed j' h
    simp only [replay_resume] at h
    by_cases hst : job.status ≠ "stopped"
    · rw [if_pos hst] at h
      exact Option.noConfusion h
    · rw [if_neg hst] at h
      simp only [Option.some.injEq] at h
      rw [← h]
      exact ⟨rfl, Nat.min_le_right _ _⟩

/-- Witness for C10: the three no-op guards on concrete jobs, plus the
clamped start index of a resume whose stopped job claims `current_index`
5 over a 2-record scan. -/
theorem c10_resume_noop_guards_witness :
    replay_resume none (some []) = none ∧
    replay_resume (some (ReplayJob.mk "running" 2 0 0 "h" 1700 50 0 0 []
      false)) (some []) = none ∧
    replay_resume (some (ReplayJob.mk "stopped" 2 0 0 "h" 1700 50 0 5 []
      false)) none = none ∧
    ((store_replay_job 2 "h" 1700 50 (min 5 2) 0 0 [] false).start_index =
      min 5 2 ∧
     (store_replay_job 2 "h" 1700 50 (min 5 2) 0 0 [] false).start_index ≤ 2) := by
  refine ⟨c10_resume_noop_guards.1 (some []), ?_, c10_resume_noop_guards.2.2.1 _, ?_⟩
  · exact c10_resume_noop_guards.2.1 _ (some []) (by decide)
  · have h := c10_resume_noop_guards.2.2.2
      (ReplayJob.mk "stopped" 2 0 0 "h" 1700 50 0 5 [] false)
      [⟨"g1", Json.obj []⟩, ⟨"g2", Json.obj []⟩]
      (store_replay_job 2 "h" 1700 50 (min 5 2) 0 0 [] false) rfl
    simpa using h
